import Mathlib

/-!
Verification development for the rusty-lox tree-walking interpreter.

The Rust sources are embedded shallowly:
* `Span`, `Token`, `TokenType` follow `src/span.rs` and `src/lexer.rs`
  (the Rust field `end` is named `stop` here because `end` is a Lean keyword;
  Rust byte offsets are modelled as character offsets, which coincide for the
  ASCII sources considered here).
* The lexer state `Lexer` carries the cursor and the accumulated tokens and
  errors; the borrowed `source` field is passed explicitly as a `List Char`.
  The Rust `while` loops that advance the cursor over a character class are
  factored into `skipWhile`.
* The parser and interpreter follow in later sections.

Loops and recursion that are not structural in Rust are modelled with an
explicit fuel parameter; a fuel-exhaustion outcome is distinguished from all
program outcomes.
-/

namespace RustyLox

/-- Source span, from `src/span.rs` (`start`/`end` byte offsets; `end` is
renamed `stop`). -/
structure Span where
  start : Nat
  stop : Nat
deriving DecidableEq, Repr

/-- `Span::new` from `src/span.rs`. -/
def Span.new (start stop : Nat) : Span := ⟨start, stop⟩

/-- `Span::slice` from `src/span.rs` as a character-indexed slice.  Rust's
`&source[start..end]` is byte-indexed; on the ASCII sources used by every
interpreter and parser fixture below the two coincide.  The byte-level
behaviour — including the panic on an index that is not a UTF-8 character
boundary, which is reachable in the lexer and material to its totality — is
modelled separately by `Span.slice_bytes?`. -/
def Span.slice (s : Span) (source : String) : String :=
  String.mk ((source.toList.drop s.start).take (s.stop - s.start))

/-- The character index corresponding to UTF-8 byte offset `n` of the
character list, or `none` when `n` overruns the text or falls strictly
inside a multi-byte character (not on a character boundary). -/
def byteBoundary? : List Char → Nat → Option Nat
  | _, 0 => some 0
  | [], _ + 1 => none
  | c :: rest, n + 1 =>
    if c.utf8Size ≤ n + 1 then
      (byteBoundary? rest (n + 1 - c.utf8Size)).map (· + 1)
    else
      none

/-- `Span::slice` with Rust's actual byte indexing: `&source[start..end]`
yields the text between the two byte offsets and panics — modelled as
`none` — when the range is reversed or either offset is not a UTF-8
character boundary of the string. -/
def Span.slice_bytes? (s : Span) (source : String) : Option String :=
  if s.stop < s.start then none
  else
    match byteBoundary? source.toList s.start, byteBoundary? source.toList s.stop with
    | some i, some j => some (String.mk ((source.toList.drop i).take (j - i)))
    | _, _ => none

/-- `Span::combine` from `src/span.rs`. -/
def Span.combine (s other : Span) : Span :=
  Span.new (min s.start other.start) (max s.stop other.stop)

/-- `TokenType` from `src/lexer.rs`.  Constructor names that collide with
Lean keywords carry a trailing underscore. -/
inductive TokenType where
  | leftParen | rightParen | leftBrace | rightBrace
  | comma | dot | minus | plus | semicolon | slash | star
  | bang | bangEqual | equal | equalEqual
  | greater | greaterEqual | less | lessEqual
  | identifier | string_ | number
  | and_ | class_ | else_ | false_ | fun_ | for_ | if_ | nil_ | or_
  | print_ | return_ | super_ | this_ | true_ | var_ | while_
  | eof
deriving DecidableEq, Repr

/-- `Token` from `src/lexer.rs`. -/
structure Token where
  span : Span
  type_ : TokenType
deriving DecidableEq, Repr

/-- `Token::new` from `src/lexer.rs`. -/
def Token.new (span_start span_end : Nat) (type_ : TokenType) : Token :=
  ⟨Span.new span_start span_end, type_⟩

/-- `TokenType::from_character` from `src/lexer.rs`. -/
def TokenType.from_character (character : Char) : Option TokenType :=
  match character with
  | '(' => some leftParen
  | ')' => some rightParen
  | '{' => some leftBrace
  | '}' => some rightBrace
  | ',' => some comma
  | '.' => some dot
  | '-' => some minus
  | '+' => some plus
  | ';' => some semicolon
  | '*' => some star
  | _ => none

/-- Lexer `Error` from `src/lexer.rs`. -/
inductive LexError where
  | unterminatedStringLiteral (starting_at : Nat)
  | unexpectedToken (at_ : Nat)
deriving DecidableEq, Repr

/-- `is_digit` from `src/lexer.rs`. -/
def is_digit (character : Char) : Bool :=
  character = '0' ∨ character = '1' ∨ character = '2' ∨ character = '3' ∨
  character = '4' ∨ character = '5' ∨ character = '6' ∨ character = '7' ∨
  character = '8' ∨ character = '9'

/-- The mutable lexer state of `Lexer` in `src/lexer.rs` (the borrowed
`source` field is passed separately). -/
structure Lexer where
  current_position : Nat
  errors : List LexError
  tokens : List Token
deriving DecidableEq, Repr

/-- `NextResult` from `src/lexer.rs`. -/
inductive NextResult where
  | done
  | notDone
deriving DecidableEq, Repr

/-- `Lexer::current_character`: `source.chars().nth(current_position)`. -/
def currentCharacter (source : List Char) (position : Nat) : Option Char :=
  source.get? position

/-- The length of the prefix of consecutive characters satisfying `pred`. -/
def skipCount (pred : Char → Bool) : List Char → Nat
  | [] => 0
  | c :: rest => if pred c then skipCount pred rest + 1 else 0

/-- A cursor advancing `while` loop over a character class, as used by
`lex_number`, `lex_identifier_or_keyword`, `lex_string` and
`absorb_until_newline` in `src/lexer.rs`: starting at `position`, advance
while the current character exists and satisfies `pred`; return the final
position.  (The loop stops at the first position whose character fails
`pred` or runs off the end, hence the prefix count of the dropped suffix.) -/
def skipWhile (source : List Char) (pred : Char → Bool) (position : Nat) : Nat :=
  position + skipCount pred (source.drop position)

/-- `Lexer::absorb_single_character_token` from `src/lexer.rs`. -/
def Lexer.absorb_single_character_token (l : Lexer) (token_type : TokenType) : Lexer :=
  { l with
    tokens := l.tokens ++ [Token.new l.current_position (l.current_position + 1) token_type]
    current_position := l.current_position + 1 }

/-- `Lexer::absorb_if_match` from `src/lexer.rs`. -/
def Lexer.absorb_if_match (source : List Char) (l : Lexer) (character_to_match : Char) :
    Lexer × Bool :=
  match currentCharacter source l.current_position with
  | some current_character =>
    if current_character = character_to_match then
      ({ l with current_position := l.current_position + 1 }, true)
    else
      (l, false)
  | none => (l, false)

/-- The keyword table of `Lexer::lex_identifier_or_keyword`. -/
def keywords : List (String × TokenType) :=
  [("and", .and_), ("class", .class_), ("else", .else_), ("false", .false_),
   ("for", .for_), ("fun", .fun_), ("if", .if_), ("nil", .nil_),
   ("or", .or_), ("print", .print_), ("return", .return_), ("super", .super_),
   ("this", .this_), ("true", .true_), ("var", .var_), ("while", .while_)]

/-- `Lexer::lex_identifier_or_keyword` from `src/lexer.rs`: consume the
maximal run of ASCII alphanumeric characters and emit the keyword token or
an identifier token.  The keyword-table slice is Rust's byte-indexed
`Span::slice` applied to the *character*-indexed cursor positions, so it
panics — modelled as `none` — whenever those positions are not byte
boundaries, which happens as soon as a multi-byte character precedes the
identifier. -/
def Lexer.lex_identifier_or_keyword (source : List Char) (l : Lexer) : Option Lexer :=
  let identifier_start := l.current_position
  let position := skipWhile source
    (fun c => c.toNat < 128 ∧ (c.isAlpha ∨ c.isDigit)) l.current_position
  match (Span.new identifier_start position).slice_bytes? (String.mk source) with
  | none => none
  | some identifier_or_keyword =>
    match (keywords.lookup identifier_or_keyword) with
    | some keyword_type =>
      some { l with current_position := position
                    tokens := l.tokens ++ [Token.new identifier_start position keyword_type] }
    | none =>
      some { l with current_position := position
                    tokens := l.tokens ++ [Token.new identifier_start position .identifier] }

/-- `Lexer::lex_number` from `src/lexer.rs`: consume a maximal digit run,
then consume a `.` and a further digit run only when the character one past
the dot is again a digit. -/
def Lexer.lex_number (source : List Char) (l : Lexer) : Lexer :=
  let number_start := l.current_position
  let position := skipWhile source is_digit l.current_position
  let current_character := currentCharacter source position
  let next_character := source.get? (position + 1)
  let position :=
    if current_character = some '.' ∧ (next_character.map is_digit).getD false then
      skipWhile source is_digit (position + 1)
    else
      position
  { l with current_position := position
           tokens := l.tokens ++ [Token.new number_start position .number] }

/-- `Lexer::lex_string` from `src/lexer.rs`. -/
def Lexer.lex_string (source : List Char) (l : Lexer) : Lexer :=
  let string_start := l.current_position
  let position := l.current_position + 1
  let position := skipWhile source (fun c => ¬(c = '"')) position
  match currentCharacter source position with
  | none => { l with current_position := position
                     errors := l.errors ++ [.unterminatedStringLiteral string_start] }
  | some _ =>
    { l with current_position := position + 1
             tokens := l.tokens ++ [Token.new string_start (position + 1) .string_] }

/-- `Lexer::absorb_until_newline` from `src/lexer.rs`. -/
def Lexer.absorb_until_newline (source : List Char) (l : Lexer) : Lexer :=
  { l with current_position := skipWhile source (fun c => ¬(c = '\n')) l.current_position }

/-- The outcome of one scanning step: the updated lexer with the Rust
`NextResult`, or a reached panic (the byte-indexed keyword slice inside
`lex_identifier_or_keyword`). -/
inductive LexStep where
  | step (l : Lexer) (r : NextResult)
  | panicked
deriving DecidableEq, Repr

/-- `Lexer::next` from `src/lexer.rs`: the scanning step.  The Rust inner
`loop` continues (without returning) exactly for `'\n'` and for unexpected
characters; both branches advance the cursor one position and re-enter the
same match with no other state change, which is observably identical to
returning `NotDone` to the driving loop of `Lexer::lex` — they are modelled
that way, keeping this step function non-recursive. -/
def Lexer.next (source : List Char) (l : Lexer) : LexStep :=
  match currentCharacter source l.current_position with
  | some '\n' =>
    .step { l with current_position := l.current_position + 1 } .notDone
  | some '!' =>
    let l := { l with current_position := l.current_position + 1 }
    let (l, is_bang_equal) := l.absorb_if_match source '='
    let l := { l with tokens := l.tokens ++
      [if is_bang_equal then
        Token.new (l.current_position - 2) l.current_position .bangEqual
      else
        Token.new (l.current_position - 1) l.current_position .bang] }
    .step l .notDone
  | some '=' =>
    let l := { l with current_position := l.current_position + 1 }
    let (l, is_equal_equal) := l.absorb_if_match source '='
    let l := { l with tokens := l.tokens ++
      [if is_equal_equal then
        Token.new (l.current_position - 2) l.current_position .equalEqual
      else
        Token.new (l.current_position - 1) l.current_position .equal] }
    .step l .notDone
  | some '>' =>
    let l := { l with current_position := l.current_position + 1 }
    let (l, is_greater_equal) := l.absorb_if_match source '='
    let l := { l with tokens := l.tokens ++
      [if is_greater_equal then
        Token.new (l.current_position - 2) l.current_position .greaterEqual
      else
        Token.new (l.current_position - 1) l.current_position .greater] }
    .step l .notDone
  | some '<' =>
    let l := { l with current_position := l.current_position + 1 }
    let (l, is_less_equal) := l.absorb_if_match source '='
    let l := { l with tokens := l.tokens ++
      [if is_less_equal then
        Token.new (l.current_position - 2) l.current_position .lessEqual
      else
        Token.new (l.current_position - 1) l.current_position .less] }
    .step l .notDone
  | some '/' =>
    let l := { l with current_position := l.current_position + 1 }
    let (l, is_comment) := l.absorb_if_match source '/'
    if is_comment then
      .step (l.absorb_until_newline source) .notDone
    else
      .step { l with tokens := l.tokens ++
        [Token.new (l.current_position - 1) l.current_position .slash] } .notDone
  | some character =>
    match TokenType.from_character character with
    | some token_type => .step (l.absorb_single_character_token token_type) .notDone
    | none =>
      if character = ' ' ∨ character = '\n' ∨ character = '\r' ∨ character = '\t' then
        .step { l with current_position := l.current_position + 1 } .notDone
      else if character = '"' then
        .step (l.lex_string source) .notDone
      else if is_digit character then
        .step (l.lex_number source) .notDone
      else if character.toNat < 128 ∧ character.isAlpha then
        match l.lex_identifier_or_keyword source with
        | some l => .step l .notDone
        | none => .panicked
      else
        .step { l with current_position := l.current_position + 1
                       errors := l.errors ++ [.unexpectedToken l.current_position] } .notDone
  | none =>
    .step { l with tokens := l.tokens ++
      [Token.new l.current_position (l.current_position + 1) .eof] } .done

/-- Lexer `Result` from `src/lexer.rs`. -/
structure LexResult where
  errors : List LexError
  tokens : List Token
deriving DecidableEq, Repr

/-- How a run of `Lexer::lex` ends: the Rust `Result { tokens, errors }`,
or a panic that unwound out of a scanning step. -/
inductive LexOutcome where
  | result (r : LexResult)
  | panicked
deriving DecidableEq, Repr

/-- The driving `loop` of `Lexer::lex`, with explicit fuel: run `next` until
it reports `Done` or panics.  `none` means the fuel ran out. -/
def lexLoop (fuel : Nat) (source : List Char) (l : Lexer) : Option LexOutcome :=
  match fuel with
  | 0 => none
  | fuel + 1 =>
    match Lexer.next source l with
    | .panicked => some .panicked
    | .step l .done => some (.result { tokens := l.tokens, errors := l.errors })
    | .step l .notDone => lexLoop fuel source l

/-- `Lexer::lex` from `src/lexer.rs`.  The Rust loop needs at most
`source.length + 1` iterations (each non-final step advances the cursor), so
that much fuel is supplied; theorem `lexLoop_isSome` below shows it never
runs out. -/
def Lexer.lex (input : String) : Option LexOutcome :=
  lexLoop (input.toList.length + 1) input.toList
    { current_position := 0, errors := [], tokens := [] }

/-!
The AST, from `src/expression.rs` and `src/statement.rs` as used by
`src/parser.rs` and `src/interpreter.rs` (the `Rc`-shared form: `parser.rs`
builds `Rc<Expression>` nodes and `statement.rs` declarations).  The
`Get`/`Set`/`Super`/`This` expression variants are never constructed by this
parser and evaluate to `todo!()`; they are omitted, which does not affect any
reachable behaviour.
-/

/-- `LiteralExpression` from `src/expression.rs`. -/
inductive LiteralExpression where
  | string_ (value : Token)
  | number (value : Token)
  | boolean (span : Span) (value : Bool)
  | nil_ (span : Span)
deriving DecidableEq, Repr

/-- `Expression` from `src/expression.rs` (the variant payload structs
`AssignmentExpression`, `BinaryExpression`, … are inlined as constructor
fields). -/
inductive Expression where
  | assignment (name : Token) (value : Expression)
  | binary (left right : Expression) (operator : Token)
  | call (callee : Expression) (arguments : List Expression) (closing_paren : Token)
  | grouping (expression : Expression)
  | literal (l : LiteralExpression)
  | logical (left right : Expression) (operator : Token)
  | unary (operator : Token) (right : Expression)
  | variable (name : Token)
deriving Repr

/-- `LiteralExpression::span` from `src/expression.rs`. -/
def LiteralExpression.span : LiteralExpression → Span
  | .string_ token => token.span
  | .number token => token.span
  | .boolean span _ => span
  | .nil_ span => span

mutual

/-- `Expression::span` from `src/expression.rs`.  The `Grouping`, `Logical`
and `Unary` arms are `todo!()` in the source; reaching them panics, modelled
as `none`. -/
def Expression.span? : Expression → Option Span
  | .assignment name _ => some name.span
  | .binary left right operator =>
    match left.span?, right.span? with
    | some ls, some rs => some ((ls.combine operator.span).combine rs)
    | _, _ => none
  | .call callee arguments closing_paren =>
    match callee.span?, Expression.spanFold arguments closing_paren.span with
    | some cs, some args_span => some ((cs.combine closing_paren.span).combine args_span)
    | _, _ => none
  | .grouping _ => none
  | .literal l => some l.span
  | .logical _ _ _ => none
  | .unary _ _ => none
  | .variable name => some name.span

/-- The `arguments.iter().fold(paren.span, |acc, el| acc.combine(el.span()))`
inside `Expression::span`. -/
def Expression.spanFold : List Expression → Span → Option Span
  | [], acc => some acc
  | e :: rest, acc =>
    match e.span? with
    | some s => Expression.spanFold rest (acc.combine s)
    | none => none

end

mutual

/-- `Declaration` from `src/statement.rs`. -/
inductive Declaration where
  | function (name : Token) (parameters : List Token) (body : List Declaration)
  | variable (name : Token) (initialiser : Option Expression)
  | statement (s : Statement)

/-- `Statement` from `src/statement.rs`.  The `Return` variant is matched by
`evaluate_statement` in `src/interpreter.rs` as `Statement::Return { value, .. }`
although the snapshot's `statement.rs` predates it; its `value` field shape is
taken from that match (the `..`-elided fields do not affect evaluation). -/
inductive Statement where
  | print (e : Expression)
  | expression (e : Expression)
  | block (declarations : List Declaration)
  | if_ (condition : Expression) (then_branch : Statement) (else_branch : Option Statement)
  | while_ (condition : Expression) (body : Statement)
  | return_ (value : Expression)

end

/-- Parser `Error` from `src/parser.rs` (the source spells the variant
`TwoManyArguments`). -/
inductive ParseError where
  | unexpectedToken (expected_token_type : Option TokenType)
      (unexpected_token_type : TokenType) (span : Span)
  | unexpectedEof
  | invalidAssignmentTarget (target_span : Span)
  | twoManyArguments (callee_span : Span)
deriving DecidableEq, Repr

/-- The mutable parser state of `Parser` in `src/parser.rs`.  The Rust
`current_index` cursor into the token slice is modelled by the remaining
suffix `rest`; the idiom `tokens.get(self.current_index - 1)` immediately
after a consume reads the token the consume helpers return here. -/
structure Parser where
  rest : List Token
  errors : List ParseError
deriving Repr

/-- `Parser::current_token` from `src/parser.rs`. -/
def Parser.current_token (p : Parser) : Option Token :=
  p.rest.head?

/-- `Parser::consume_token_if_in_vec` from `src/parser.rs`.  The Rust
function returns `bool`; the consumed token (which call sites re-read via
`tokens.get(current_index - 1)`) is returned directly. -/
def Parser.consume_token_if_in_vec (p : Parser) (token_types : List TokenType) :
    Option Token × Parser :=
  match p.rest with
  | [] => (none, p)
  | current_token :: rest =>
    if current_token.type_ ∈ token_types then
      (some current_token, { p with rest := rest })
    else
      (none, p)

/-- `Parser::consume_token_of_type` from `src/parser.rs`. -/
def Parser.consume_token_of_type (p : Parser) (token_type : TokenType) :
    Option Token × Parser :=
  match p.rest with
  | [] => (none, { p with errors := p.errors ++ [.unexpectedEof] })
  | current_token :: rest =>
    if current_token.type_ = token_type then
      (some current_token, { p with rest := rest })
    else
      (none, { p with errors := p.errors ++
        [.unexpectedToken (some token_type) current_token.type_ current_token.span] })

/-- Outcome of a parse production: Rust `Some` (with the updated parser
state), Rust `None` (with the updated parser state holding any recorded
errors), a reached panic (`todo!()` inside `Expression::span`, or an
`unwrap` of `None`), or fuel exhaustion (a model artefact: the Rust
recursion has no fuel). -/
inductive ParseStep (α : Type) where
  | ok (a : α) (p : Parser)
  | failed (p : Parser)
  | panicked
  | fuelOut
deriving Repr

/-- The closing `consume_token_of_type(RightParen)` and `Call` construction
shared by both exits of `Parser::parse_call_arguments`. -/
def parse_call_arguments_close (callee : Expression) (arguments : List Expression)
    (p : Parser) : ParseStep Expression :=
  match p.consume_token_of_type .rightParen with
  | (some closing_paren, p) => .ok (.call callee arguments closing_paren) p
  | (none, p) => .failed p

mutual

/-- `Parser::parse_expression` from `src/parser.rs`. -/
def parse_expression : Nat → Parser → ParseStep Expression
  | 0, _ => .fuelOut
  | fuel + 1, p => parse_assignment fuel p

/-- `Parser::parse_assignment` from `src/parser.rs`. -/
def parse_assignment : Nat → Parser → ParseStep Expression
  | 0, _ => .fuelOut
  | fuel + 1, p =>
    match parse_or fuel p with
    | .ok expression p =>
      match p.consume_token_if_in_vec [.equal] with
      | (some _, p) =>
        match parse_assignment fuel p with
        | .ok value p =>
          match expression with
          | .variable name => .ok (.assignment name value) p
          | _ =>
            match expression.span? with
            | some target_span =>
              .ok expression { p with errors := p.errors ++ [.invalidAssignmentTarget target_span] }
            | none => .panicked
        | other => other
      | (none, p) => .ok expression p
    | other => other

/-- `Parser::parse_or` from `src/parser.rs`. -/
def parse_or : Nat → Parser → ParseStep Expression
  | 0, _ => .fuelOut
  | fuel + 1, p =>
    match parse_and fuel p with
    | .ok expression p => parse_or_loop fuel expression p
    | other => other

/-- The `while` loop of `Parser::parse_or`. -/
def parse_or_loop : Nat → Expression → Parser → ParseStep Expression
  | 0, _, _ => .fuelOut
  | fuel + 1, expression, p =>
    match p.consume_token_if_in_vec [.or_] with
    | (some operator, p) =>
      match parse_and fuel p with
      | .ok right p => parse_or_loop fuel (.logical expression right operator) p
      | other => other
    | (none, p) => .ok expression p

/-- `Parser::parse_and` from `src/parser.rs`. -/
def parse_and : Nat → Parser → ParseStep Expression
  | 0, _ => .fuelOut
  | fuel + 1, p =>
    match parse_equality fuel p with
    | .ok expression p => parse_and_loop fuel expression p
    | other => other

/-- The `while` loop of `Parser::parse_and`. -/
def parse_and_loop : Nat → Expression → Parser → ParseStep Expression
  | 0, _, _ => .fuelOut
  | fuel + 1, expression, p =>
    match p.consume_token_if_in_vec [.and_] with
    | (some operator, p) =>
      match parse_equality fuel p with
      | .ok right p => parse_and_loop fuel (.logical expression right operator) p
      | other => other
    | (none, p) => .ok expression p

/-- `Parser::parse_equality` from `src/parser.rs`. -/
def parse_equality : Nat → Parser → ParseStep Expression
  | 0, _ => .fuelOut
  | fuel + 1, p =>
    match parse_comparison fuel p with
    | .ok expression p => parse_equality_loop fuel expression p
    | other => other

/-- The `while` loop of `Parser::parse_equality`. -/
def parse_equality_loop : Nat → Expression → Parser → ParseStep Expression
  | 0, _, _ => .fuelOut
  | fuel + 1, expression, p =>
    match p.consume_token_if_in_vec [.bangEqual, .equalEqual] with
    | (some operator, p) =>
      match parse_comparison fuel p with
      | .ok right p => parse_equality_loop fuel (.binary expression right operator) p
      | other => other
    | (none, p) => .ok expression p

/-- `Parser::parse_comparison` from `src/parser.rs`. -/
def parse_comparison : Nat → Parser → ParseStep Expression
  | 0, _ => .fuelOut
  | fuel + 1, p =>
    match parse_term fuel p with
    | .ok expression p => parse_comparison_loop fuel expression p
    | other => other

/-- The `while` loop of `Parser::parse_comparison`. -/
def parse_comparison_loop : Nat → Expression → Parser → ParseStep Expression
  | 0, _, _ => .fuelOut
  | fuel + 1, expression, p =>
    match p.consume_token_if_in_vec [.greater, .greaterEqual, .less, .lessEqual] with
    | (some operator, p) =>
      match parse_term fuel p with
      | .ok right p => parse_comparison_loop fuel (.binary expression right operator) p
      | other => other
    | (none, p) => .ok expression p

/-- `Parser::parse_term` from `src/parser.rs`. -/
def parse_term : Nat → Parser → ParseStep Expression
  | 0, _ => .fuelOut
  | fuel + 1, p =>
    match parse_factor fuel p with
    | .ok expression p => parse_term_loop fuel expression p
    | other => other

/-- The `while` loop of `Parser::parse_term`. -/
def parse_term_loop : Nat → Expression → Parser → ParseStep Expression
  | 0, _, _ => .fuelOut
  | fuel + 1, expression, p =>
    match p.consume_token_if_in_vec [.minus, .plus] with
    | (some operator, p) =>
      match parse_factor fuel p with
      | .ok right p => parse_term_loop fuel (.binary expression right operator) p
      | other => other
    | (none, p) => .ok expression p

/-- `Parser::parse_factor` from `src/parser.rs`. -/
def parse_factor : Nat → Parser → ParseStep Expression
  | 0, _ => .fuelOut
  | fuel + 1, p =>
    match parse_unary fuel p with
    | .ok expression p => parse_factor_loop fuel expression p
    | other => other

/-- The `while` loop of `Parser::parse_factor`. -/
def parse_factor_loop : Nat → Expression → Parser → ParseStep Expression
  | 0, _, _ => .fuelOut
  | fuel + 1, expression, p =>
    match p.consume_token_if_in_vec [.slash, .star] with
    | (some operator, p) =>
      match parse_unary fuel p with
      | .ok right p => parse_factor_loop fuel (.binary expression right operator) p
      | other => other
    | (none, p) => .ok expression p

/-- `Parser::parse_unary` from `src/parser.rs`. -/
def parse_unary : Nat → Parser → ParseStep Expression
  | 0, _ => .fuelOut
  | fuel + 1, p =>
    match p.consume_token_if_in_vec [.bang, .minus] with
    | (some operator, p) =>
      match parse_unary fuel p with
      | .ok right p => .ok (.unary operator right) p
      | other => other
    | (none, p) => parse_call fuel p

/-- `Parser::parse_call` from `src/parser.rs`. -/
def parse_call : Nat → Parser → ParseStep Expression
  | 0, _ => .fuelOut
  | fuel + 1, p =>
    match parse_primary fuel p with
    | .ok expression p => parse_call_loop fuel expression p
    | other => other

/-- The `loop` of `Parser::parse_call`. -/
def parse_call_loop : Nat → Expression → Parser → ParseStep Expression
  | 0, _, _ => .fuelOut
  | fuel + 1, expression, p =>
    match p.consume_token_if_in_vec [.leftParen] with
    | (some _, p) =>
      match parse_call_arguments fuel expression p with
      | .ok expression p => parse_call_loop fuel expression p
      | other => other
    | (none, p) => .ok expression p

/-- `Parser::parse_call_arguments` from `src/parser.rs`. -/
def parse_call_arguments : Nat → Expression → Parser → ParseStep Expression
  | 0, _, _ => .fuelOut
  | fuel + 1, callee, p =>
    match p.current_token with
    | none => .failed p
    | some current_token =>
      if current_token.type_ = .rightParen then
        parse_call_arguments_close callee [] p
      else
        match parse_call_arguments_loop fuel callee [] p with
        | .ok arguments p => parse_call_arguments_close callee arguments p
        | .failed p => .failed p
        | .panicked => .panicked
        | .fuelOut => .fuelOut

/-- The argument `loop` of `Parser::parse_call_arguments`: push the next
argument, record `TwoManyArguments` whenever `arguments.len() >= 255` after
the push, and continue only on a comma. -/
def parse_call_arguments_loop : Nat → Expression → List Expression → Parser →
    ParseStep (List Expression)
  | 0, _, _, _ => .fuelOut
  | fuel + 1, callee, arguments, p =>
    match parse_expression fuel p with
    | .ok argument p =>
      let arguments := arguments ++ [argument]
      match (if 255 ≤ arguments.length then
               match callee.span? with
               | some callee_span =>
                 some { p with errors := p.errors ++ [.twoManyArguments callee_span] }
               | none => none
             else some p) with
      | none => .panicked
      | some p =>
        match p.consume_token_if_in_vec [.comma] with
        | (some _, p) => parse_call_arguments_loop fuel callee arguments p
        | (none, p) => .ok arguments p
    | .failed p => .failed p
    | .panicked => .panicked
    | .fuelOut => .fuelOut

/-- `Parser::parse_primary` from `src/parser.rs`. -/
def parse_primary : Nat → Parser → ParseStep Expression
  | 0, _ => .fuelOut
  | fuel + 1, p =>
    match p.consume_token_if_in_vec [.false_] with
    | (some consumed, p) => .ok (.literal (.boolean consumed.span false)) p
    | (none, p) =>
    match p.consume_token_if_in_vec [.true_] with
    | (some consumed, p) => .ok (.literal (.boolean consumed.span true)) p
    | (none, p) =>
    match p.consume_token_if_in_vec [.nil_] with
    | (some consumed, p) => .ok (.literal (.nil_ consumed.span)) p
    | (none, p) =>
    match p.consume_token_if_in_vec [.number] with
    | (some consumed, p) => .ok (.literal (.number consumed)) p
    | (none, p) =>
    match p.consume_token_if_in_vec [.string_] with
    | (some consumed, p) => .ok (.literal (.string_ consumed)) p
    | (none, p) =>
    match p.consume_token_if_in_vec [.identifier] with
    | (some consumed, p) => .ok (.variable consumed) p
    | (none, p) =>
    match p.consume_token_if_in_vec [.leftParen] with
    | (some _, p) =>
      match parse_expression fuel p with
      | .ok expression p =>
        (match p.current_token with
         | none => .failed p
         | some current_token =>
           if current_token.type_ = .rightParen then
             .ok (.grouping expression) { p with rest := p.rest.tail }
           else
             .failed { p with errors := p.errors ++
               [.unexpectedToken (some .rightParen) current_token.type_ current_token.span] })
      | other => other
    | (none, p) =>
      match p.current_token with
      | some current_token =>
        .failed { p with errors := p.errors ++
          [.unexpectedToken none current_token.type_ current_token.span] }
      | none => .panicked

end

/-!
The interpreter, from `src/interpreter.rs`, `src/interpreter/value.rs`,
`src/interpreter/environment.rs` and `src/interpreter/error.rs`.

The numeric payload of `Value::Number` (`f64` in Rust) is modelled as `ℚ`:
no claim below depends on floating-point rounding, and the small decimal
literals appearing in concrete programs are exactly representable in `f64`.
Reached `todo!()` arms and `unwrap` panics are modelled by the distinguished
outcome `Failure.panicked`, which propagates past every handler exactly as a
Rust panic unwinds.
-/

mutual

/-- `Callable` from `src/interpreter/value.rs`, with the fields that
`evaluate_declaration` in `src/interpreter.rs` actually constructs.
`value.rs` additionally declares an `environment` field, but no code in the
snapshot ever supplies or reads it (`Environment::close_over` is dead code
and the `Callable` literal in `evaluate_declaration` omits the field, which
is why the snapshot does not even compile as a whole); it is therefore not
modelled. -/
inductive Callable where
  | mk (name_span : Span) (parameters : List String) (body : List Declaration)

/-- `Value` from `src/interpreter/value.rs`. -/
inductive Value where
  | string_ (span : Span) (s : String)
  | number (span : Span) (n : ℚ)
  | boolean (span : Span) (b : Bool)
  | nil (span : Span)
  | callable (c : Callable)

end

/-- The `name_span` field of `Callable`. -/
def Callable.name_span : Callable → Span
  | .mk name_span _ _ => name_span

/-- The `parameters` field of `Callable`. -/
def Callable.parameters : Callable → List String
  | .mk _ parameters _ => parameters

/-- The `body` field of `Callable`. -/
def Callable.body : Callable → List Declaration
  | .mk _ _ body => body

/-- `Value::span` from `src/interpreter/value.rs`; the `Callable` arm is
`todo!()`, modelled as `none`. -/
def Value.span? : Value → Option Span
  | .string_ span _ => some span
  | .number span _ => some span
  | .boolean span _ => some span
  | .nil span => some span
  | .callable _ => none

/-- `Environment` from `src/interpreter/environment.rs`: an optional parent
and a `HashMap<String, Rc<Value>>` of bindings, the map modelled as an
association list observed only through lookups.  (`Rc<RefCell<_>>` sharing
of parents is irrelevant here: the snapshot's interpreter only ever builds
parentless environments, so no aliasing is observable.) -/
inductive Environment where
  | mk (parent : Option Environment) (values : List (String × Value))

/-- The `parent` field of `Environment`. -/
def Environment.parent : Environment → Option Environment
  | .mk parent _ => parent

/-- The `values` field of `Environment`. -/
def Environment.values : Environment → List (String × Value)
  | .mk _ values => values

/-- `Environment::new` from `src/interpreter/environment.rs`. -/
def Environment.new : Environment := .mk none []

/-- `HashMap::insert` on the association-list model: overwrite the entry for
the key if present, otherwise add one.  Only lookups observe the map, so any
lookup-faithful realisation is adequate. -/
def hashInsert (name : String) (value : Value)
    (values : List (String × Value)) : List (String × Value) :=
  if (values.lookup name).isSome then
    values.map (fun entry => if entry.1 = name then (name, value) else entry)
  else
    values ++ [(name, value)]

/-- `Environment::define` from `src/interpreter/environment.rs`. -/
def Environment.define (e : Environment) (name : String) (value : Value) : Environment :=
  .mk e.parent (hashInsert name value e.values)

/-- `Environment::get` from `src/interpreter/environment.rs`: this scope's
map first, then the parent chain (`(*(self.parent.as_ref()?)).borrow().get`).
The match on the parent is lifted into the top-level patterns, which does
not change the function. -/
def Environment.get : Environment → String → Token → Option Value
  | .mk none values, source, token =>
    (match values.lookup (token.span.slice source) with
     | some value => some value
     | none => none)
  | .mk (some p) values, source, token =>
    (match values.lookup (token.span.slice source) with
     | some value => some value
     | none => Environment.get p source token)

/-- `Environment::assign` from `src/interpreter/environment.rs`: overwrite
an existing binding in this scope, else recurse into the parent; `none`
models the `Err(())` of the Rust signature and the environment is returned
updated on success.  As for `get`, the parent match is lifted into the
top-level patterns. -/
def Environment.assign : Environment → String → Value → Option Environment
  | .mk none values, name, new_value =>
    if (values.lookup name).isSome then
      some (.mk none
        (values.map (fun entry => if entry.1 = name then (name, new_value) else entry)))
    else
      none
  | .mk (some p) values, name, new_value =>
    if (values.lookup name).isSome then
      some (.mk (some p)
        (values.map (fun entry => if entry.1 = name then (name, new_value) else entry)))
    else
      match Environment.assign p name new_value with
      | some p => some (.mk (some p) values)
      | none => none

/-- Interpreter `Error` from `src/interpreter/error.rs`. -/
inductive Error where
  | type_ (expected : String) (got : String) (source_token_span : Span)
  | variableDoesntExist (token : Token)
  | notCallable (span : Span)
  | arity (got : Nat) (expected : Nat) (call_span : Span)

/-- `Error::type_error` from `src/interpreter/error.rs`. -/
def Error.type_error (expected got : String) (source_token_span : Span) : Error :=
  .type_ expected got source_token_span

/-- A failure propagating out of evaluation: a runtime `Error`, a reached
panic (`todo!()` or a failed `unwrap`), or fuel exhaustion (a model
artefact: the Rust recursion has no fuel). -/
inductive Failure where
  | err (e : Error)
  | panicked
  | fuelOut

/-- `ErrorOrReturn` from `src/interpreter.rs`, widened with the panic and
fuel outcomes: the signal a statement propagates instead of completing
normally. -/
inductive Signal where
  | fail (f : Failure)
  | ret (v : Value)

/-- The `Interpreter` state from `src/interpreter.rs`: the environment
stack, innermost scope first (the head here is the last element of the Rust
`Vec`, its push/pop end). -/
structure Interpreter where
  environment_stack : List Environment

/-- `Interpreter::new` from `src/interpreter.rs`. -/
def Interpreter.new : Interpreter :=
  ⟨[Environment.new]⟩

/-- `environment_stack.push`. -/
def Interpreter.push (i : Interpreter) (e : Environment) : Interpreter :=
  ⟨e :: i.environment_stack⟩

/-- `environment_stack.pop` (the popped value is always discarded in the
source). -/
def Interpreter.pop (i : Interpreter) : Interpreter :=
  ⟨i.environment_stack.tail⟩

/-- `self.current_scope().define(name, value)` from `src/interpreter.rs`.
`current_scope` unwraps the top of the stack; the stack is never empty in
any reachable state (it starts as one global scope and pops only balance
pushes), so the `[]` case is unreachable and kept as the identity. -/
def Interpreter.define (i : Interpreter) (name : String) (value : Value) : Interpreter :=
  match i.environment_stack with
  | [] => i
  | e :: rest => ⟨e.define name value :: rest⟩

/-- The stack walk of `Interpreter::assign` from `src/interpreter.rs`:
`iter_mut().rev()` visits the innermost scope first; the first environment
whose own `assign` succeeds is updated in place. -/
def assignStack (name : String) (new_value : Value) :
    List Environment → Option (List Environment)
  | [] => none
  | environment :: rest =>
    match environment.assign name new_value with
    | some environment => some (environment :: rest)
    | none =>
      match assignStack name new_value rest with
      | some rest => some (environment :: rest)
      | none => none

/-- `Interpreter::assign` from `src/interpreter.rs`. -/
def Interpreter.assign (i : Interpreter) (name : String) (new_value : Value) :
    Option Interpreter :=
  match assignStack name new_value i.environment_stack with
  | some environment_stack => some ⟨environment_stack⟩
  | none => none

/-- The stack walk of `Interpreter::get` from `src/interpreter.rs`. -/
def getStack (source : String) (token : Token) : List Environment → Option Value
  | [] => none
  | environment :: rest =>
    match environment.get source token with
    | some value => some value
    | none => getStack source token rest

/-- `Interpreter::get` from `src/interpreter.rs`. -/
def Interpreter.get (i : Interpreter) (source : String) (token : Token) : Option Value :=
  getStack source token i.environment_stack

/-- `Interpreter::string_description` from `src/interpreter.rs`; the
`Callable` arm is `todo!()`, modelled as `none`. -/
def string_description : Value → Option String
  | .string_ _ _ => some "String"
  | .number _ _ => some "Number"
  | .boolean _ _ => some "Boolean"
  | .nil _ => some "Nil"
  | .callable _ => none

/-- `Interpreter::is_truthy` from `src/interpreter.rs`. -/
def is_truthy : Value → Bool
  | .string_ _ _ => true
  | .number _ _ => true
  | .boolean _ value => value
  | .nil _ => false
  | .callable _ => true

/-- `Interpreter::as_number` from `src/interpreter.rs`. -/
def as_number (value : Value) : Except Failure ℚ :=
  match value with
  | .number _ n => .ok n
  | _ =>
    match value.span?, string_description value with
    | some span, some got => .error (.err (Error.type_error "Number" got span))
    | _, _ => .error .panicked

/-- `Interpreter::as_string` from `src/interpreter.rs`: a `String` is
returned, a `Number` is a type error, and the `Boolean`/`Nil`/`Callable`
arms are `todo!()`. -/
def as_string (value : Value) : Except Failure String
  := match value with
  | .string_ _ s => .ok s
  | .number span _ => .error (.err (Error.type_error "String" "Number" span))
  | _ => .error .panicked

/-- `Interpreter::plus_or_concat` from `src/interpreter.rs`: the left
operand's runtime type selects concatenation (coercing the right with
`as_string`) or addition (coercing with `as_number`); a
`Boolean`/`Nil`/`Callable` left operand is `todo!()`.  `right.span()` is
evaluated before the coercion, as in the source's constructor argument
order. -/
def plus_or_concat (left right : Value) : Except Failure Value :=
  match left with
  | .string_ left_span l =>
    match right.span? with
    | none => .error .panicked
    | some right_span =>
      match as_string right with
      | .ok r => .ok (.string_ (left_span.combine right_span) (l ++ r))
      | .error f => .error f
  | .number left_span l =>
    match right.span? with
    | none => .error .panicked
    | some right_span =>
      match as_number right with
      | .ok r => .ok (.number (left_span.combine right_span) (l + r))
      | .error f => .error f
  | _ => .error .panicked

/-- `Interpreter::value_as_callable` from `src/interpreter.rs`. -/
def value_as_callable (value : Value) (name_span : Span) : Except Failure Callable :=
  match value with
  | .callable callable => .ok callable
  | _ => .error (.err (.notCallable name_span))

/-- Models `str::parse::<f64>()` as applied by `evaluate_literal` to the
lexer's number literals (a digit run with an optional fractional digit run):
such short decimal literals parse exactly, and `f64` rounding of longer ones
is not modelled.  `none` models a parse failure, which the source turns into
a panic. -/
def parse_f64? (s : String) : Option ℚ :=
  let digitsVal? : List Char → Option Nat := fun cs =>
    if cs ≠ [] ∧ cs.all is_digit then
      some (cs.foldl (fun acc c => acc * 10 + (c.toNat - 48)) 0)
    else
      none
  match (s.toList.splitOn '.').map digitsVal? with
  | [some intPart] => some ((intPart : ℚ))
  | [some intPart, some fracPart] =>
    some ((intPart : ℚ) + (fracPart : ℚ) / ((10 : ℚ) ^ (s.toList.splitOn '.')[1]!.length))
  | _ => none

/-- `Interpreter::evaluate_literal` from `src/interpreter.rs` (string
literals are sliced without their quotes; a number literal that fails to
parse panics). -/
def evaluate_literal (source : String) (literal : LiteralExpression) : Except Failure Value :=
  match literal with
  | .string_ value =>
    .ok (.string_ value.span
      ((Span.new (value.span.start + 1) (value.span.stop - 1)).slice source))
  | .number value =>
    match parse_f64? (value.span.slice source) with
    | some n => .ok (.number value.span n)
    | none => .error .panicked
  | .boolean span value => .ok (.boolean span value)
  | .nil_ span => .ok (.nil span)

/-- The parameter-binding `for` loop of `Interpreter::evaluate_call`:
`parameters.iter().zip(argument_values.iter())`, each pair defined in the
current scope. -/
def define_parameters : List String → List Value → Interpreter → Interpreter
  | paramater_name :: parameters, argument :: arguments, i =>
    define_parameters parameters arguments (i.define paramater_name argument)
  | _, _, i => i

/-- Whether `Value::pretty_print` completes: its `Callable` arm is
`todo!()`; the printed output itself is not modelled. -/
def pretty_print_completes : Value → Bool
  | .callable _ => false
  | _ => true

mutual

/-- `Interpreter::evaluate_declarations` from `src/interpreter.rs`
(`try_for_each`: stop at the first declaration that signals). -/
def evaluate_declarations : Nat → String → List Declaration → Interpreter →
    Interpreter × Option Signal
  | 0, _, _, i => (i, some (.fail .fuelOut))
  | fuel + 1, source, declarations, i =>
    match declarations with
    | [] => (i, none)
    | declaration :: rest =>
      match evaluate_declaration fuel source declaration i with
      | (i, none) => evaluate_declarations fuel source rest i
      | (i, some signal) => (i, some signal)

/-- `Interpreter::evaluate_declaration` from `src/interpreter.rs`. -/
def evaluate_declaration : Nat → String → Declaration → Interpreter →
    Interpreter × Option Signal
  | 0, _, _, i => (i, some (.fail .fuelOut))
  | fuel + 1, source, declaration, i =>
    match declaration with
    | .function name parameters body =>
      (i.define (name.span.slice source)
        (.callable (.mk name.span
          (parameters.map (fun token => token.span.slice source)) body)), none)
    | .variable name initialiser =>
      match initialiser with
      | some initialiser =>
        match evaluate_expression fuel source initialiser i with
        | (i, .ok value) => (i.define (name.span.slice source) value, none)
        | (i, .error f) => (i, some (.fail f))
      | none => (i.define (name.span.slice source) (.nil name.span), none)
    | .statement statement => evaluate_statement fuel source statement i

/-- `Interpreter::evaluate_statement` from `src/interpreter.rs`. -/
def evaluate_statement : Nat → String → Statement → Interpreter →
    Interpreter × Option Signal
  | 0, _, _, i => (i, some (.fail .fuelOut))
  | fuel + 1, source, statement, i =>
    match statement with
    | .print expression =>
      match evaluate_expression fuel source expression i with
      | (i, .ok result) =>
        (i, if pretty_print_completes result then none else some (.fail .panicked))
      | (i, .error f) => (i, some (.fail f))
    | .expression expression =>
      match evaluate_expression fuel source expression i with
      | (i, .ok _) => (i, none)
      | (i, .error f) => (i, some (.fail f))
    | .block declarations =>
      match evaluate_declarations fuel source declarations (i.push Environment.new) with
      | (i, result) => (i.pop, result)
    | .if_ condition then_branch else_branch =>
      match evaluate_expression fuel source condition i with
      | (i, .error f) => (i, some (.fail f))
      | (i, .ok condition) =>
        if is_truthy condition then
          evaluate_statement fuel source then_branch i
        else
          match else_branch with
          | some else_branch => evaluate_statement fuel source else_branch i
          | none => (i, none)
    | .while_ condition body =>
      match evaluate_expression fuel source condition i with
      | (i, .error f) => (i, some (.fail f))
      | (i, .ok condition_value) =>
        evaluate_while fuel source condition body condition_value i
    | .return_ value =>
      match evaluate_expression fuel source value i with
      | (i, .ok result) => (i, some (.ret result))
      | (i, .error f) => (i, some (.fail f))

/-- The `while` loop inside `Statement::While` evaluation: run the body and
re-evaluate the condition while the condition value is truthy, propagating
any signal out of the body or the condition. -/
def evaluate_while : Nat → String → Expression → Statement → Value → Interpreter →
    Interpreter × Option Signal
  | 0, _, _, _, _, i => (i, some (.fail .fuelOut))
  | fuel + 1, source, condition, body, condition_value, i =>
    if is_truthy condition_value then
      match evaluate_statement fuel source body i with
      | (i, some signal) => (i, some signal)
      | (i, none) =>
        match evaluate_expression fuel source condition i with
        | (i, .ok condition_value) =>
          evaluate_while fuel source condition body condition_value i
        | (i, .error f) => (i, some (.fail f))
    else
      (i, none)

/-- `Interpreter::evaluate_expression` from `src/interpreter.rs` (the
`Get`/`Set`/`Super`/`This` arms are `todo!()` and their variants never
constructed; they are absent from the embedded `Expression`). -/
def evaluate_expression : Nat → String → Expression → Interpreter →
    Interpreter × Except Failure Value
  | 0, _, _, i => (i, .error .fuelOut)
  | fuel + 1, source, expression, i =>
    match expression with
    | .assignment name value =>
      match evaluate_expression fuel source value i with
      | (i, .error f) => (i, .error f)
      | (i, .ok value) =>
        match i.assign (name.span.slice source) value with
        | some i => (i, .ok value)
        | none => (i, .error (.err (.variableDoesntExist name)))
    | .binary left right operator =>
      evaluate_binary_expression fuel source left right operator i
    | .call callee arguments closing_paren =>
      evaluate_call fuel source callee closing_paren arguments i
    | .grouping expression => evaluate_expression fuel source expression i
    | .literal literal => (i, evaluate_literal source literal)
    | .logical left right operator =>
      match evaluate_expression fuel source left i with
      | (i, .error f) => (i, .error f)
      | (i, .ok left) =>
        if operator.type_ = .or_ ∧ is_truthy left then
          (i, .ok left)
        else if operator.type_ = .and_ ∧ ¬(is_truthy left = true) then
          (i, .ok left)
        else
          evaluate_expression fuel source right i
    | .unary operator right => evaluate_unary_expression fuel source operator right i
    | .variable name =>
      match i.get source name with
      | some value => (i, .ok value)
      | none => (i, .error (.err (.variableDoesntExist name)))

/-- `Interpreter::evaluate_call` from `src/interpreter.rs`: take the callee
expression's span (which can panic), evaluate the callee, require a
`Callable`, check arity before evaluating any argument, evaluate the
arguments left to right, push a fresh parentless environment onto the
caller's stack, bind the parameters, run the body, pop, and translate the
outcome (`Ok` → `Nil`, a `Return` signal → its value, an error → the
error). -/
def evaluate_call : Nat → String → Expression → Token → List Expression → Interpreter →
    Interpreter × Except Failure Value
  | 0, _, _, _, _, i => (i, .error .fuelOut)
  | fuel + 1, source, callee, closing_paren, arguments, i =>
    match callee.span? with
    | none => (i, .error .panicked)
    | some callee_span =>
      match evaluate_expression fuel source callee i with
      | (i, .error f) => (i, .error f)
      | (i, .ok callee_value) =>
        match value_as_callable callee_value callee_span with
        | .error f => (i, .error f)
        | .ok callee =>
          if ¬(callee.parameters.length = arguments.length) then
            (i, .error (.err (.arity arguments.length callee.parameters.length
              (callee_span.combine closing_paren.span))))
          else
            match evaluate_arguments fuel source arguments i with
            | (i, .error f) => (i, .error f)
            | (i, .ok argument_values) =>
              let i := define_parameters callee.parameters argument_values
                (i.push Environment.new)
              match evaluate_declarations fuel source callee.body i with
              | (i, none) => (i.pop, .ok (.nil (Span.new 0 0)))
              | (i, some (.ret value)) => (i.pop, .ok value)
              | (i, some (.fail f)) => (i.pop, .error f)

/-- The argument-evaluation `for` loop of `Interpreter::evaluate_call`:
evaluate each argument in order in the caller's state, stopping at the
first failure. -/
def evaluate_arguments : Nat → String → List Expression → Interpreter →
    Interpreter × Except Failure (List Value)
  | 0, _, _, i => (i, .error .fuelOut)
  | fuel + 1, source, arguments, i =>
    match arguments with
    | [] => (i, .ok [])
    | argument :: rest =>
      match evaluate_expression fuel source argument i with
      | (i, .error f) => (i, .error f)
      | (i, .ok argument_value) =>
        match evaluate_arguments fuel source rest i with
        | (i, .error f) => (i, .error f)
        | (i, .ok argument_values) => (i, .ok (argument_value :: argument_values))

/-- `Interpreter::evaluate_unary_expression` from `src/interpreter.rs`:
`-` negates a number, `!` negates truthiness; every other operator token
type is `todo!()`.  The result span combines the operator span with
`right.span()` (which can panic). -/
def evaluate_unary_expression : Nat → String → Token → Expression → Interpreter →
    Interpreter × Except Failure Value
  | 0, _, _, _, i => (i, .error .fuelOut)
  | fuel + 1, source, operator, right, i =>
    match evaluate_expression fuel source right i with
    | (i, .error f) => (i, .error f)
    | (i, .ok right) =>
      match operator.type_ with
      | .minus =>
        match right.span? with
        | none => (i, .error .panicked)
        | some right_span =>
          match as_number right with
          | .ok n => (i, .ok (.number (operator.span.combine right_span) (-n)))
          | .error f => (i, .error f)
      | .bang =>
        match right.span? with
        | none => (i, .error .panicked)
        | some right_span =>
          (i, .ok (.boolean (operator.span.combine right_span) (¬(is_truthy right = true))))
      | _ => (i, .error .panicked)

/-- `Interpreter::evaluate_binary_expression` from `src/interpreter.rs`.
The source first computes
`left.span().combine(operator.span).combine(right.span())` (either call can
panic), then dispatches on the operator token type: `-`, `/`, `*` and the
comparisons coerce both operands with `as_number` (left fully evaluated and
coerced before the right is evaluated); `+` delegates to `plus_or_concat`;
all remaining token types are `todo!()`. -/
def evaluate_binary_expression : Nat → String → Expression → Expression → Token →
    Interpreter → Interpreter × Except Failure Value
  | 0, _, _, _, _, i => (i, .error .fuelOut)
  | fuel + 1, source, left, right, operator, i =>
    match left.span?, right.span? with
    | none, _ => (i, .error .panicked)
    | _, none => (i, .error .panicked)
    | some left_span, some right_span =>
      let span := (left_span.combine operator.span).combine right_span
      match operator.type_ with
      | .minus => evaluate_arith fuel source left right i (fun l r => .number span (l - r))
      | .plus =>
        match evaluate_expression fuel source left i with
        | (i, .error f) => (i, .error f)
        | (i, .ok left) =>
          match evaluate_expression fuel source right i with
          | (i, .error f) => (i, .error f)
          | (i, .ok right) => (i, plus_or_concat left right)
      | .slash => evaluate_arith fuel source left right i (fun l r => .number span (l / r))
      | .star => evaluate_arith fuel source left right i (fun l r => .number span (l * r))
      | .bangEqual =>
        evaluate_arith fuel source left right i (fun l r => .boolean span (¬(l = r)))
      | .equalEqual =>
        evaluate_arith fuel source left right i (fun l r => .boolean span (l = r))
      | .greater => evaluate_arith fuel source left right i (fun l r => .boolean span (r < l))
      | .greaterEqual =>
        evaluate_arith fuel source left right i (fun l r => .boolean span (r ≤ l))
      | .less => evaluate_arith fuel source left right i (fun l r => .boolean span (l < r))
      | .lessEqual => evaluate_arith fuel source left right i (fun l r => .boolean span (l ≤ r))
      | _ => (i, .error .panicked)

/-- The shared operand pattern of the numeric arms of
`evaluate_binary_expression`: evaluate the left operand and coerce it with
`as_number`, then evaluate the right operand and coerce it, then combine. -/
def evaluate_arith : Nat → String → Expression → Expression → Interpreter →
    (ℚ → ℚ → Value) → Interpreter × Except Failure Value
  | 0, _, _, _, i, _ => (i, .error .fuelOut)
  | fuel + 1, source, left, right, i, combine =>
    match evaluate_expression fuel source left i with
    | (i, .error f) => (i, .error f)
    | (i, .ok left) =>
      match as_number left with
      | .error f => (i, .error f)
      | .ok left =>
        match evaluate_expression fuel source right i with
        | (i, .error f) => (i, .error f)
        | (i, .ok right) =>
          match as_number right with
          | .error f => (i, .error f)
          | .ok right => (i, .ok (combine left right))

end

/-- `Interpreter::interpret` from `src/interpreter.rs`: a `Return` signal
reaching the top level is swallowed; only real failures surface. -/
def interpret (fuel : Nat) (source : String) (declarations : List Declaration)
    (i : Interpreter) : Interpreter × Option Failure :=
  match evaluate_declarations fuel source declarations i with
  | (i, none) => (i, none)
  | (i, some (.ret _)) => (i, none)
  | (i, some (.fail f)) => (i, some f)

/-- Whether some scope of this environment's parent chain binds `name`
(the chain `Environment::assign` searches, by bare name). -/
def Environment.chainBinds (name : String) : Environment → Bool
  | .mk none values => (values.lookup name).isSome
  | .mk (some p) values =>
    (values.lookup name).isSome || Environment.chainBinds name p

/-!
Concrete program fixtures used by theorems and witnesses below.
-/

/-- An interpreter state whose global scope binds `f` to a one-parameter
function with an empty body (as left by `fun f(x) {}`). -/
def c5_interpreter : Interpreter :=
  ⟨[Environment.new.define "f" (.callable (.mk (Span.new 0 1) ["x"] []))]⟩

/-- An interpreter state whose global scope binds `f` to a zero-parameter
function whose body is `return 7;` (the `7` at offset 4 of `c2_source`). -/
def c2_source : String := "f() 7"

def c2_interpreter : Interpreter :=
  ⟨[Environment.new.define "f" (.callable (.mk (Span.new 0 1) []
    [.statement (.return_ (.literal (.number (Token.new 4 5 .number))))]))]⟩

/-- Source of the C1 exhibit: `fun f(){return a;}fun g(){var a=2;return f();}`
(`f` at 4, the free `a` at 15, `g` at 22, the local `a` at 30, its
initialiser `2` at 32, the inner callee `f` at 41). -/
def c1_source : String :=
  "fun f()\x7breturn a;\x7dfun g()\x7bvar a=2;return f();\x7d"

def c1_declF : Declaration :=
  .function (Token.new 4 5 .identifier) []
    [.statement (.return_ (.variable (Token.new 15 16 .identifier)))]

def c1_declG : Declaration :=
  .function (Token.new 22 23 .identifier) []
    [.variable (Token.new 30 31 .identifier)
      (some (.literal (.number (Token.new 32 33 .number)))),
     .statement (.return_ (.call (.variable (Token.new 41 42 .identifier)) []
       (Token.new 43 44 .rightParen)))]

/-- The call `g()` evaluated after the two declarations of `c1_source`. -/
def c1_call : Expression :=
  .call (.variable (Token.new 22 23 .identifier)) [] (Token.new 45 46 .rightParen)

/-!
Token fixtures for the C6 call-argument family `f(a, a, …, a)` (token spans
are immaterial to the parse; the callee identifier spans offsets 0–1, which
is the span the recorded `TwoManyArguments` error carries).
-/

def c6_identTok : Token := Token.new 0 1 .identifier

def c6_commaTok : Token := Token.new 1 2 .comma

def c6_lparenTok : Token := Token.new 2 3 .leftParen

def c6_rparenTok : Token := Token.new 3 4 .rightParen

/-- `n` identifier argument tokens separated by commas. -/
def c6_argTokens : Nat → List Token
  | 0 => []
  | 1 => [c6_identTok]
  | n + 2 => c6_identTok :: c6_commaTok :: c6_argTokens (n + 1)

/-- The token stream of a call `f(a, …, a)` with `n` arguments (no `Eof`:
the expression parser is entered directly). -/
def c6_callTokens (n : Nat) : List Token :=
  c6_identTok :: c6_lparenTok :: (c6_argTokens n ++ [c6_rparenTok])

/-- The `TwoManyArguments` errors the argument loop records when `m`
arguments are parsed on top of `a` already-parsed ones: one error for every
argument from the 255th on. -/
def c6_tma_errors (a m : Nat) : List ParseError :=
  List.replicate ((a + m) - max a 254) (.twoManyArguments (Span.new 0 1))

/-!
Theorems.  The lexer first.
-/

theorem skipWhile_ge (source : List Char) (pred : Char → Bool) (position : Nat) :
    position ≤ skipWhile source pred position :=
  Nat.le_add_right _ _

theorem skipWhile_gt (source : List Char) (pred : Char → Bool) (position : Nat)
    (c : Char) (h : currentCharacter source position = some c) (hp : pred c = true) :
    position + 1 ≤ skipWhile source pred position := by
  have hlt : position < source.length := by
    rcases List.get?_eq_some.mp h with ⟨hl, _⟩
    exact hl
  have hget : source[position] = c := by
    have h' : source[position]? = some c := by
      simpa [currentCharacter, List.get?_eq_getElem?] using h
    rwa [List.getElem?_eq_getElem hlt, Option.some_inj] at h'
  have hdrop : source.drop position = c :: source.drop (position + 1) := by
    rw [List.drop_eq_getElem_cons hlt, hget]
  unfold skipWhile
  rw [hdrop]
  simp [skipCount, hp]

theorem absorb_if_match_pos (source : List Char) (l : Lexer) (c : Char) :
    (l.absorb_if_match source c).1.current_position = l.current_position ∨
    (l.absorb_if_match source c).1.current_position = l.current_position + 1 := by
  unfold Lexer.absorb_if_match
  cases currentCharacter source l.current_position with
  | none => simp
  | some d => by_cases hd : d = c <;> simp [hd]

theorem lex_string_pos (source : List Char) (l : Lexer) :
    l.current_position + 1 ≤ (l.lex_string source).current_position := by
  have h1 := skipWhile_ge source (fun c => ¬(c = '"')) (l.current_position + 1)
  unfold Lexer.lex_string
  dsimp only
  split <;> dsimp only <;> omega

theorem lex_number_pos (source : List Char) (l : Lexer) (c : Char)
    (h : currentCharacter source l.current_position = some c) (hd : is_digit c = true) :
    l.current_position + 1 ≤ (l.lex_number source).current_position := by
  have h1 := skipWhile_gt source is_digit l.current_position c h hd
  have h2 := skipWhile_ge source is_digit
    (skipWhile source is_digit l.current_position + 1)
  unfold Lexer.lex_number
  dsimp only
  split <;> omega

theorem lex_identifier_pos (source : List Char) (l : Lexer) (c : Char)
    (h : currentCharacter source l.current_position = some c)
    (hc : (c.toNat < 128 ∧ (c.isAlpha ∨ c.isDigit) : Bool) = true)
    (l' : Lexer) (hsome : l.lex_identifier_or_keyword source = some l') :
    l.current_position + 1 ≤ l'.current_position := by
  have h1 := skipWhile_gt source (fun c => c.toNat < 128 ∧ (c.isAlpha ∨ c.isDigit))
    l.current_position c h hc
  unfold Lexer.lex_identifier_or_keyword at hsome
  dsimp only at hsome
  split at hsome
  · cases hsome
  · split at hsome <;> (cases hsome; dsimp only; omega)

/-- C8: lexing `"2."` yields exactly `[Number "2", Dot, Eof]` and `".2"`
yields exactly `[Dot, Number "2", Eof]`, both with no errors and with the
number tokens spanning `"2"`; and in general `lex_number` emits one number
token starting at the cursor, and the `.` found at the end of the integer
digit run is consumed into that token if and only if the character
immediately after the `.` is again a digit. -/
theorem c8_number_dot_quirk :
    (Lexer.lex "2." = some (.result { errors := [], tokens :=
        [Token.new 0 1 .number, Token.new 1 2 .dot, Token.new 2 3 .eof] })
      ∧ (Span.new 0 1).slice "2." = "2")
    ∧ (Lexer.lex ".2" = some (.result { errors := [], tokens :=
        [Token.new 0 1 .dot, Token.new 1 2 .number, Token.new 2 3 .eof] })
      ∧ (Span.new 1 2).slice ".2" = "2")
    ∧ (∀ (source : List Char) (l : Lexer),
        currentCharacter source (skipWhile source is_digit l.current_position) = some '.' →
        (Lexer.lex_number source l).tokens = l.tokens ++
            [Token.new l.current_position
              (Lexer.lex_number source l).current_position .number]
          ∧ (skipWhile source is_digit l.current_position <
                (Lexer.lex_number source l).current_position ↔
              (source.get?
                (skipWhile source is_digit l.current_position + 1)).map is_digit =
                some true)) := by
  refine ⟨⟨rfl, rfl⟩, ⟨rfl, rfl⟩, ?_⟩
  intro source l hdot
  constructor
  · unfold Lexer.lex_number
    dsimp only
  · have hge := skipWhile_ge source is_digit
      (skipWhile source is_digit l.current_position + 1)
    unfold Lexer.lex_number
    dsimp only
    cases hnext : (source.get? (skipWhile source is_digit l.current_position + 1)) with
    | none => simp [hnext]
    | some c =>
      cases hc : is_digit c with
      | false => simp [hnext, hc]
      | true =>
        rw [if_pos (by simp [hdot, hnext, hc])]
        simp [hnext, hc]
        omega

/-- If the cursor is at or past the end of the input, the next scanning step
emits `Eof` and reports `Done`. -/
theorem next_done_of_ge (source : List Char) (l : Lexer)
    (h : source.length ≤ l.current_position) :
    Lexer.next source l =
      .step { l with tokens := l.tokens ++
        [Token.new l.current_position (l.current_position + 1) .eof] } .done := by
  have hnone : currentCharacter source l.current_position = none :=
    List.get?_eq_none.mpr h
  unfold Lexer.next
  rw [hnone]

/-- Every scanning step that does not report `Done` advances the cursor by
at least one position. -/
theorem next_notDone_advances (source : List Char) (l l' : Lexer)
    (h : Lexer.next source l = .step l' .notDone) :
    l.current_position < l'.current_position := by
  unfold Lexer.next at h
  split at h
  -- '\n'
  · cases h
    simp
  -- '!'
  · rcases hab : Lexer.absorb_if_match source
      { l with current_position := l.current_position + 1 } '=' with ⟨l1, b⟩
    have h1 := absorb_if_match_pos source
      { l with current_position := l.current_position + 1 } '='
    dsimp only at h
    rw [hab] at h1 h
    dsimp only at h1 h
    cases h
    dsimp only
    omega
  -- '='
  · rcases hab : Lexer.absorb_if_match source
      { l with current_position := l.current_position + 1 } '=' with ⟨l1, b⟩
    have h1 := absorb_if_match_pos source
      { l with current_position := l.current_position + 1 } '='
    dsimp only at h
    rw [hab] at h1 h
    dsimp only at h1 h
    cases h
    dsimp only
    omega
  -- '>'
  · rcases hab : Lexer.absorb_if_match source
      { l with current_position := l.current_position + 1 } '=' with ⟨l1, b⟩
    have h1 := absorb_if_match_pos source
      { l with current_position := l.current_position + 1 } '='
    dsimp only at h
    rw [hab] at h1 h
    dsimp only at h1 h
    cases h
    dsimp only
    omega
  -- '<'
  · rcases hab : Lexer.absorb_if_match source
      { l with current_position := l.current_position + 1 } '=' with ⟨l1, b⟩
    have h1 := absorb_if_match_pos source
      { l with current_position := l.current_position + 1 } '='
    dsimp only at h
    rw [hab] at h1 h
    dsimp only at h1 h
    cases h
    dsimp only
    omega
  -- '/'
  · rcases hab : Lexer.absorb_if_match source
      { l with current_position := l.current_position + 1 } '/' with ⟨l1, b⟩
    have h1 := absorb_if_match_pos source
      { l with current_position := l.current_position + 1 } '/'
    dsimp only at h
    rw [hab] at h1 h
    dsimp only at h1 h
    split at h
    · cases h
      have h2 := skipWhile_ge source (fun c => ¬(c = '\n')) l1.current_position
      dsimp only [Lexer.absorb_until_newline]
      omega
    · cases h
      dsimp only
      omega
  -- the general `Some(character)` arm
  · rename_i character hne1 hne2 hne3 hne4 hne5 hne6 heq
    split at h
    -- single-character token
    · cases h
      simp [Lexer.absorb_single_character_token]
    · split at h
      -- whitespace
      · cases h
        simp
      · split at h
        -- string literal
        · cases h
          have := lex_string_pos source l
          omega
        · split at h
          -- number literal
          · rename_i hdig
            cases h
            have := lex_number_pos source l character heq hdig
            omega
          · split at h
            -- identifier or keyword: split on the byte-slice outcome
            · rename_i halpha
              split at h
              · rename_i l1 hsome
                cases h
                have := lex_identifier_pos source l character heq (by
                  rcases halpha with ⟨h128, halph⟩
                  simp [h128, halph]) _ hsome
                omega
              · cases h
            -- unexpected character
            · cases h
              simp
  -- end of input: Done, contradicting NotDone
  · cases h

/-- The driving loop never runs out of fuel once the fuel exceeds the
number of positions left: every step stops (with the token result or the
panic) or advances the cursor. -/
theorem lexLoop_isSome (fuel : Nat) (source : List Char) (l : Lexer)
    (h : source.length - l.current_position < fuel) :
    (lexLoop fuel source l).isSome = true := by
  induction fuel generalizing l with
  | zero => omega
  | succ fuel ih =>
    unfold lexLoop
    cases hnext : Lexer.next source l with
    | panicked => simp
    | step l' r =>
      cases r with
      | done => simp
      | notDone =>
        simp only []
        apply ih
        have hadv := next_notDone_advances source l l' hnext
        have hlt : l.current_position < source.length := by
          by_contra hge
          have := next_done_of_ge source l (by omega)
          rw [this] at hnext
          cases hnext
        omega

theorem utf8Size_ascii (c : Char) (h : c.toNat < 128) : c.utf8Size = 1 := by
  unfold Char.utf8Size
  have hle : c.val ≤ 127 := by
    rw [UInt32.le_def]
    show c.val.toNat ≤ (127 : UInt32).toNat
    exact Nat.le_of_lt_succ (by exact_mod_cast h)
  simp [hle]

/-- On all-ASCII text every byte offset up to the length is a character
boundary at the same character index. -/
theorem byteBoundary_ascii : ∀ (cs : List Char), (∀ c ∈ cs, c.toNat < 128) →
    ∀ n, n ≤ cs.length → byteBoundary? cs n = some n := by
  intro cs
  induction cs with
  | nil =>
    intro _ n hn
    have : n = 0 := by simpa using hn
    subst this
    rfl
  | cons c rest ih =>
    intro hascii n hn
    cases n with
    | zero => rfl
    | succ n =>
      have hsize : c.utf8Size = 1 := utf8Size_ascii c (hascii c (by simp))
      unfold byteBoundary?
      rw [hsize, if_pos (by omega), show n + 1 - 1 = n from by omega,
        ih (fun c hc => hascii c (by simp [hc])) n (by simpa using hn)]
      rfl

theorem slice_bytes_ascii (source : List Char) (hascii : ∀ c ∈ source, c.toNat < 128)
    (start stop : Nat) (h1 : start ≤ stop) (h2 : stop ≤ source.length) :
    ((Span.new start stop).slice_bytes? (String.mk source)).isSome = true := by
  unfold Span.slice_bytes?
  have hsrc : (String.mk source).toList = source := rfl
  dsimp only [Span.new]
  rw [if_neg (by omega), hsrc, byteBoundary_ascii source hascii start (by omega),
    byteBoundary_ascii source hascii stop h2]
  rfl

theorem skipCount_le (pred : Char → Bool) : ∀ (cs : List Char),
    skipCount pred cs ≤ cs.length := by
  intro cs
  induction cs with
  | nil => simp [skipCount]
  | cons c rest ih =>
    by_cases hp : pred c = true
    · simp [skipCount, hp]
      omega
    · simp [skipCount, hp]

theorem skipWhile_le (source : List Char) (pred : Char → Bool) (position : Nat)
    (h : position ≤ source.length) :
    skipWhile source pred position ≤ source.length := by
  unfold skipWhile
  have := skipCount_le pred (source.drop position)
  have hlen : (source.drop position).length = source.length - position := by simp
  omega

/-- On all-ASCII input the identifier keyword slice stays on byte
boundaries, so `lex_identifier_or_keyword` cannot reach its panic. -/
theorem lex_identifier_no_panic (source : List Char) (l : Lexer) (c : Char)
    (h : currentCharacter source l.current_position = some c)
    (hascii : ∀ c ∈ source, c.toNat < 128) :
    ¬(l.lex_identifier_or_keyword source = none) := by
  intro hnone
  have hlt : l.current_position < source.length := by
    rcases List.get?_eq_some.mp h with ⟨hl, _⟩
    exact hl
  have hle := skipWhile_ge source (fun c => c.toNat < 128 ∧ (c.isAlpha ∨ c.isDigit))
    l.current_position
  have hstop := skipWhile_le source (fun c => c.toNat < 128 ∧ (c.isAlpha ∨ c.isDigit))
    l.current_position (by omega)
  have hsome := slice_bytes_ascii source hascii l.current_position
    (skipWhile source (fun c => c.toNat < 128 ∧ (c.isAlpha ∨ c.isDigit))
      l.current_position) (by omega) hstop
  unfold Lexer.lex_identifier_or_keyword at hnone
  dsimp only at hnone
  split at hnone
  · rename_i hsl
    rw [hsl] at hsome
    cases hsome
  · split at hnone <;> cases hnone

/-- On all-ASCII input no scanning step panics. -/
theorem next_ascii_no_panic (source : List Char) (l : Lexer)
    (hascii : ∀ c ∈ source, c.toNat < 128) :
    ¬(Lexer.next source l = .panicked) := by
  intro h
  unfold Lexer.next at h
  split at h
  · cases h
  · dsimp only at h
    rcases hab : Lexer.absorb_if_match source
      { l with current_position := l.current_position + 1 } '=' with ⟨l1, b⟩
    rw [hab] at h
    cases h
  · dsimp only at h
    rcases hab : Lexer.absorb_if_match source
      { l with current_position := l.current_position + 1 } '=' with ⟨l1, b⟩
    rw [hab] at h
    cases h
  · dsimp only at h
    rcases hab : Lexer.absorb_if_match source
      { l with current_position := l.current_position + 1 } '=' with ⟨l1, b⟩
    rw [hab] at h
    cases h
  · dsimp only at h
    rcases hab : Lexer.absorb_if_match source
      { l with current_position := l.current_position + 1 } '=' with ⟨l1, b⟩
    rw [hab] at h
    cases h
  · dsimp only at h
    rcases hab : Lexer.absorb_if_match source
      { l with current_position := l.current_position + 1 } '/' with ⟨l1, b⟩
    rw [hab] at h
    split at h
    · cases h
    · cases h
  · rename_i character hne1 hne2 hne3 hne4 hne5 hne6 heq
    split at h
    · cases h
    · split at h
      · cases h
      · split at h
        · cases h
        · split at h
          · cases h
          · split at h
            · split at h
              · cases h
              · rename_i hnone
                exact lex_identifier_no_panic source l character heq hascii hnone
            · cases h
  · cases h

/-- On all-ASCII input the lexer completes with its token/error result
whenever the fuel exceeds the number of positions left. -/
theorem lexLoop_ascii (fuel : Nat) (source : List Char) (l : Lexer)
    (hascii : ∀ c ∈ source, c.toNat < 128)
    (h : source.length - l.current_position < fuel) :
    ∃ r, lexLoop fuel source l = some (.result r) := by
  induction fuel generalizing l with
  | zero => omega
  | succ fuel ih =>
    unfold lexLoop
    cases hnext : Lexer.next source l with
    | panicked => exact absurd hnext (next_ascii_no_panic source l hascii)
    | step l' r =>
      cases r with
      | done => exact ⟨_, rfl⟩
      | notDone =>
        dsimp only
        apply ih
        have hadv := next_notDone_advances source l l' hnext
        have hlt : l.current_position < source.length := by
          by_contra hge
          have := next_done_of_ge source l (by omega)
          rw [this] at hnext
          cases hnext
        omega

/-- C9 counterexample: on the input `"€ab"` the lexer is not a total
function of its input — the cursor is character-indexed while the keyword
slice is byte-indexed, so scanning the identifier `ab` (whose character
positions 1..3 are not byte boundaries after the three-byte `€`) panics
instead of producing a token list ending in `Eof`. -/
theorem c9_counterexample :
    Lexer.lex "€ab" = some .panicked := rfl

/-- C9 (amended): the scanning loop of `Lexer::lex` terminates on every
finite input — each step either stops (emitting `Eof`, or unwinding the
keyword-slice panic) or advances the cursor by at least one position, so
fuel `input.length + 1` always suffices; and the lexer is a total function
of every input whose characters are ASCII (where the character-indexed
cursor agrees with the byte-indexed `Span::slice`), returning the
token/error result. -/
theorem c9_lexer_termination :
    (∀ (source : List Char) (l l' : Lexer),
        Lexer.next source l = .step l' .notDone →
        l.current_position < l'.current_position)
    ∧ (∀ input : String, (Lexer.lex input).isSome = true)
    ∧ (∀ input : String, (∀ c ∈ input.toList, c.toNat < 128) →
        ∃ r, Lexer.lex input = some (.result r)) := by
  refine ⟨next_notDone_advances, ?_, ?_⟩
  · intro input
    exact lexLoop_isSome _ _ _ (by simp)
  · intro input hascii
    exact lexLoop_ascii _ _ _ hascii (by simp)

/-- Witness for C9 at the input `"ab"`: the first scanning step does not
report `Done` and advances the cursor from 0 to 2, and the whole (ASCII)
lex returns a result. -/
theorem c9_witness :
    (⟨0, [], []⟩ : Lexer).current_position <
      (⟨2, [], [Token.new 0 2 .identifier]⟩ : Lexer).current_position
    ∧ (∃ r, Lexer.lex "ab" = some (.result r)) :=
  ⟨c9_lexer_termination.1 "ab".toList ⟨0, [], []⟩
    ⟨2, [], [Token.new 0 2 .identifier]⟩ rfl,
   c9_lexer_termination.2.2 "ab" (by decide)⟩

/-- Witness for C8's general conjunct, at the input `"2.5"`: the digit run
ends at position 1 on a `.` followed by the digit `5`, so the `.` is
consumed and the number token spans all of `"2.5"`. -/
theorem c8_witness :
    (Lexer.lex_number "2.5".toList ⟨0, [], []⟩).tokens = [Token.new 0 3 .number]
    ∧ (1 < (Lexer.lex_number "2.5".toList ⟨0, [], []⟩).current_position ↔
        ("2.5".toList.get? 2).map is_digit = some true) := by
  have h := c8_number_dot_quirk.2.2 "2.5".toList ⟨0, [], []⟩ rfl
  exact ⟨h.1.trans rfl, h.2⟩

/-- C3 counterexample: evaluating `"a" + 1` does not concatenate — it
raises a TypeError (expected String, got Number), contradicting the claim
that `"a" + 1` yields `String("a1")`. -/
theorem c3_counterexample :
    evaluate_expression 9 "\"a\"+1"
      (.binary (.literal (.string_ (Token.new 0 3 .string_)))
        (.literal (.number (Token.new 4 5 .number))) (Token.new 3 4 .plus))
      Interpreter.new
    = (Interpreter.new,
        .error (.err (Error.type_error "String" "Number" (Span.new 4 5)))) := rfl

/-- C3 (amended): `+` dispatches on the left operand's runtime type, but no
cross-type coercion happens: String + String concatenates while
String + Number raises a TypeError (expected String, got Number); with a
Number on the left, Number + Number adds and Number + String raises a
TypeError (expected Number, got String).  The final conjunct connects this
to the evaluation of a binary `+` expression. -/
theorem c3_plus_dispatch :
    (∀ (ls rs : Span) (a b : String),
      plus_or_concat (.string_ ls a) (.string_ rs b) =
        .ok (.string_ (ls.combine rs) (a ++ b)))
    ∧ (∀ (ls rs : Span) (a : String) (n : ℚ),
      plus_or_concat (.string_ ls a) (.number rs n) =
        .error (.err (Error.type_error "String" "Number" rs)))
    ∧ (∀ (ls rs : Span) (m n : ℚ),
      plus_or_concat (.number ls m) (.number rs n) =
        .ok (.number (ls.combine rs) (m + n)))
    ∧ (∀ (ls rs : Span) (m : ℚ) (b : String),
      plus_or_concat (.number ls m) (.string_ rs b) =
        .error (.err (Error.type_error "Number" "String" rs)))
    ∧ (∀ (fuel : Nat) (source : String) (left right : Expression) (operator : Token)
        (i i1 i2 : Interpreter) (lv rv : Value) (ls rs : Span),
      left.span? = some ls → right.span? = some rs → operator.type_ = .plus →
      evaluate_expression fuel source left i = (i1, .ok lv) →
      evaluate_expression fuel source right i1 = (i2, .ok rv) →
      evaluate_binary_expression (fuel + 1) source left right operator i =
        (i2, plus_or_concat lv rv)) := by
  refine ⟨fun _ _ _ _ => rfl, fun _ _ _ _ => rfl, fun _ _ _ _ => rfl,
    fun _ _ _ _ => rfl, ?_⟩
  intro fuel source left right operator i i1 i2 lv rv ls rs hls hrs hop hl hr
  unfold evaluate_binary_expression
  rw [hls, hrs, hop]
  dsimp only
  rw [hl]
  dsimp only
  rw [hr]

/-- Witness for C3's amended theorem at `"a" + "b"`: both operands are
strings, so the result is the concatenation `"ab"`. -/
theorem c3_witness :
    evaluate_binary_expression 6 "\"a\"+\"b\""
      (.literal (.string_ (Token.new 0 3 .string_)))
      (.literal (.string_ (Token.new 4 7 .string_))) (Token.new 3 4 .plus)
      Interpreter.new
    = (Interpreter.new, .ok (.string_ (Span.new 0 7) "ab")) := by
  have h := c3_plus_dispatch.2.2.2.2 5 "\"a\"+\"b\""
    (.literal (.string_ (Token.new 0 3 .string_)))
    (.literal (.string_ (Token.new 4 7 .string_))) (Token.new 3 4 .plus)
    Interpreter.new Interpreter.new Interpreter.new
    (.string_ (Span.new 0 3) "a") (.string_ (Span.new 4 7) "b")
    (Span.new 0 3) (Span.new 4 7) rfl rfl rfl rfl rfl
  simpa using h

/-- C5: when the callee evaluates to a `Callable` whose parameter count
differs from the argument count, the call raises `Arity` with the expected
and actual counts and the span from the callee through the closing paren;
the interpreter state is exactly the post-callee state, so no argument has
been evaluated and the body has not run. -/
theorem c5_arity_check (fuel : Nat) (source : String) (callee : Expression)
    (closing_paren : Token) (arguments : List Expression) (i i1 : Interpreter)
    (c : Callable) (csp : Span)
    (hsp : callee.span? = some csp)
    (hcallee : evaluate_expression fuel source callee i = (i1, .ok (.callable c)))
    (hne : ¬(c.parameters.length = arguments.length)) :
    evaluate_call (fuel + 1) source callee closing_paren arguments i =
      (i1, .error (.err (.arity arguments.length c.parameters.length
        (csp.combine closing_paren.span)))) := by
  unfold evaluate_call
  rw [hsp]
  dsimp only
  rw [hcallee]
  dsimp only [value_as_callable]
  rw [if_pos hne]

/-- C7: logical operators short-circuit on the left value and otherwise
return the right operand's value verbatim — `or` with a truthy left and
`and` with a falsy left return the left value without evaluating the right
(the state stays the post-left state); in the remaining two cases the
result is exactly the evaluation of the right operand. -/
theorem c7_logical_short_circuit (fuel : Nat) (source : String)
    (left right : Expression) (operator : Token) (i i1 : Interpreter) (v : Value)
    (hl : evaluate_expression fuel source left i = (i1, .ok v)) :
    (operator.type_ = .or_ → is_truthy v = true →
      evaluate_expression (fuel + 1) source (.logical left right operator) i =
        (i1, .ok v))
    ∧ (operator.type_ = .and_ → is_truthy v = false →
      evaluate_expression (fuel + 1) source (.logical left right operator) i =
        (i1, .ok v))
    ∧ (operator.type_ = .or_ → is_truthy v = false →
      evaluate_expression (fuel + 1) source (.logical left right operator) i =
        evaluate_expression fuel source right i1)
    ∧ (operator.type_ = .and_ → is_truthy v = true →
      evaluate_expression (fuel + 1) source (.logical left right operator) i =
        evaluate_expression fuel source right i1) := by
  refine ⟨?_, ?_, ?_, ?_⟩ <;> intro hop htr <;>
    (conv_lhs => rw [evaluate_expression.eq_def]
     dsimp only
     rw [hl]
     dsimp only)
  · rw [if_pos ⟨hop, htr⟩]
  · rw [if_neg (by simp [htr]), if_pos ⟨hop, by simp [htr]⟩]
  · rw [if_neg (by simp [htr]), if_neg (by simp [hop])]
  · rw [if_neg (by simp [hop]), if_neg (by simp [htr])]

/-- Witness for C7 at `true or x` (with `x` unbound, so evaluating the
right operand would fail) and at `1 and 2` (the right operand's value, a
number, is returned verbatim). -/
theorem c7_witness :
    evaluate_expression 3 "true or x"
      (.logical (.literal (.boolean (Span.new 0 4) true))
        (.variable (Token.new 8 9 .identifier)) (Token.new 5 7 .or_))
      Interpreter.new
    = (Interpreter.new, .ok (.boolean (Span.new 0 4) true))
    ∧ evaluate_expression 3 "1 and 2"
      (.logical (.literal (.number (Token.new 0 1 .number)))
        (.literal (.number (Token.new 6 7 .number))) (Token.new 2 5 .and_))
      Interpreter.new
    = (Interpreter.new, .ok (.number (Span.new 6 7) 2)) := by
  constructor
  · exact (c7_logical_short_circuit 2 "true or x"
      (.literal (.boolean (Span.new 0 4) true))
      (.variable (Token.new 8 9 .identifier)) (Token.new 5 7 .or_)
      Interpreter.new Interpreter.new (.boolean (Span.new 0 4) true) rfl).1
      rfl rfl
  · exact ((c7_logical_short_circuit 2 "1 and 2"
      (.literal (.number (Token.new 0 1 .number)))
      (.literal (.number (Token.new 6 7 .number))) (Token.new 2 5 .and_)
      Interpreter.new Interpreter.new (.number (Span.new 0 1) 1) rfl).2.2.2
      rfl rfl).trans rfl

/-- C10: `/` on two operands that evaluate to numbers always succeeds —
including a zero divisor (the quotient value is the model's total `ℚ`
division; the `f64` infinity/NaN payloads are outside the embedding) — and
the only error `/` itself raises is a TypeError for a non-number operand
(shown for a String on either side; the right operand is not evaluated when
the left already fails to coerce). -/
theorem c10_division :
    (∀ (fuel : Nat) (source : String) (left right : Expression) (operator : Token)
        (i i1 i2 : Interpreter) (ls rs lsp rsp : Span) (a b : ℚ),
      left.span? = some ls → right.span? = some rs → operator.type_ = .slash →
      evaluate_expression fuel source left i = (i1, .ok (.number lsp a)) →
      evaluate_expression fuel source right i1 = (i2, .ok (.number rsp b)) →
      evaluate_binary_expression (fuel + 2) source left right operator i =
        (i2, .ok (.number ((ls.combine operator.span).combine rs) (a / b))))
    ∧ (∀ (fuel : Nat) (source : String) (left right : Expression) (operator : Token)
        (i i1 : Interpreter) (ls rs sp : Span) (s : String),
      left.span? = some ls → right.span? = some rs → operator.type_ = .slash →
      evaluate_expression fuel source left i = (i1, .ok (.string_ sp s)) →
      evaluate_binary_expression (fuel + 2) source left right operator i =
        (i1, .error (.err (Error.type_error "Number" "String" sp))))
    ∧ (∀ (fuel : Nat) (source : String) (left right : Expression) (operator : Token)
        (i i1 i2 : Interpreter) (ls rs lsp sp : Span) (a : ℚ) (s : String),
      left.span? = some ls → right.span? = some rs → operator.type_ = .slash →
      evaluate_expression fuel source left i = (i1, .ok (.number lsp a)) →
      evaluate_expression fuel source right i1 = (i2, .ok (.string_ sp s)) →
      evaluate_binary_expression (fuel + 2) source left right operator i =
        (i2, .error (.err (Error.type_error "Number" "String" sp)))) := by
  refine ⟨?_, ?_, ?_⟩
  · intro fuel source left right operator i i1 i2 ls rs lsp rsp a b
      hls hrs hop hl hr
    unfold evaluate_binary_expression
    rw [hls, hrs, hop]
    dsimp only
    unfold evaluate_arith
    rw [hl]
    dsimp only [as_number]
    rw [hr]
  · intro fuel source left right operator i i1 ls rs sp s hls hrs hop hl
    unfold evaluate_binary_expression
    rw [hls, hrs, hop]
    dsimp only
    unfold evaluate_arith
    rw [hl]
    dsimp only [as_number, Value.span?, string_description]
  · intro fuel source left right operator i i1 i2 ls rs lsp sp a s
      hls hrs hop hl hr
    unfold evaluate_binary_expression
    rw [hls, hrs, hop]
    dsimp only
    unfold evaluate_arith
    rw [hl]
    dsimp only [as_number]
    rw [hr]
    dsimp only [as_number, Value.span?, string_description]

/-- Witness for C5: calling the one-parameter `f` with zero arguments
raises `Arity` with expected 1, got 0, over the span from the callee
through the closing paren, leaving the state untouched. -/
theorem c5_witness :
    evaluate_call 2 "f()" (.variable (Token.new 0 1 .identifier))
      (Token.new 2 3 .rightParen) [] c5_interpreter
    = (c5_interpreter, .error (.err (.arity 0 1 (Span.new 0 3)))) :=
  c5_arity_check 1 "f()" (.variable (Token.new 0 1 .identifier))
    (Token.new 2 3 .rightParen) [] c5_interpreter c5_interpreter
    (.mk (Span.new 0 1) ["x"] []) (Span.new 0 1) rfl rfl (by decide)

/-- C2: a `Return` statement evaluates its value and raises the dedicated
`Return` signal; blocks pop their scope and propagate it; `while` bodies
propagate it out of the loop; a function-call boundary catches it and turns
it into the call's result; and a body that completes without returning
yields `Nil`. -/
theorem c2_return_signal :
    (∀ (fuel : Nat) (source : String) (value : Expression) (i i1 : Interpreter)
        (v : Value),
      evaluate_expression fuel source value i = (i1, .ok v) →
      evaluate_statement (fuel + 1) source (.return_ value) i = (i1, some (.ret v)))
    ∧ (∀ (fuel : Nat) (source : String) (ds : List Declaration) (i i2 : Interpreter)
        (v : Value),
      evaluate_declarations fuel source ds (i.push Environment.new) =
        (i2, some (.ret v)) →
      evaluate_statement (fuel + 1) source (.block ds) i = (i2.pop, some (.ret v)))
    ∧ (∀ (fuel : Nat) (source : String) (condition : Expression) (body : Statement)
        (i i1 i2 : Interpreter) (cv v : Value),
      evaluate_expression (fuel + 1) source condition i = (i1, .ok cv) →
      is_truthy cv = true →
      evaluate_statement fuel source body i1 = (i2, some (.ret v)) →
      evaluate_statement (fuel + 2) source (.while_ condition body) i =
        (i2, some (.ret v)))
    ∧ (∀ (fuel : Nat) (source : String) (callee : Expression) (closing_paren : Token)
        (arguments : List Expression) (i i1 i2 i3 : Interpreter) (c : Callable)
        (csp : Span) (argument_values : List Value) (v : Value),
      callee.span? = some csp →
      evaluate_expression fuel source callee i = (i1, .ok (.callable c)) →
      c.parameters.length = arguments.length →
      evaluate_arguments fuel source arguments i1 = (i2, .ok argument_values) →
      evaluate_declarations fuel source c.body
        (define_parameters c.parameters argument_values (i2.push Environment.new)) =
        (i3, some (.ret v)) →
      evaluate_call (fuel + 1) source callee closing_paren arguments i =
        (i3.pop, .ok v))
    ∧ (∀ (fuel : Nat) (source : String) (callee : Expression) (closing_paren : Token)
        (arguments : List Expression) (i i1 i2 i3 : Interpreter) (c : Callable)
        (csp : Span) (argument_values : List Value),
      callee.span? = some csp →
      evaluate_expression fuel source callee i = (i1, .ok (.callable c)) →
      c.parameters.length = arguments.length →
      evaluate_arguments fuel source arguments i1 = (i2, .ok argument_values) →
      evaluate_declarations fuel source c.body
        (define_parameters c.parameters argument_values (i2.push Environment.new)) =
        (i3, none) →
      evaluate_call (fuel + 1) source callee closing_paren arguments i =
        (i3.pop, .ok (.nil (Span.new 0 0)))) := by
  refine ⟨?_, ?_, ?_, ?_, ?_⟩
  · intro fuel source value i i1 v hv
    conv_lhs => rw [evaluate_statement.eq_def]
    dsimp only
    rw [hv]
  · intro fuel source ds i i2 v hd
    conv_lhs => rw [evaluate_statement.eq_def]
    dsimp only
    rw [hd]
  · intro fuel source condition body i i1 i2 cv v hc htr hb
    conv_lhs => rw [evaluate_statement.eq_def]
    dsimp only
    rw [hc]
    dsimp only
    conv_lhs => rw [evaluate_while.eq_def]
    dsimp only
    rw [if_pos htr, hb]
  · intro fuel source callee closing_paren arguments i i1 i2 i3 c csp
      argument_values v hsp hcallee hlen hargs hbody
    conv_lhs => rw [evaluate_call.eq_def]
    dsimp only
    rw [hsp]
    dsimp only
    rw [hcallee]
    dsimp only [value_as_callable]
    rw [if_neg (by simp [hlen]), hargs]
    dsimp only
    rw [hbody]
  · intro fuel source callee closing_paren arguments i i1 i2 i3 c csp
      argument_values hsp hcallee hlen hargs hbody
    conv_lhs => rw [evaluate_call.eq_def]
    dsimp only
    rw [hsp]
    dsimp only
    rw [hcallee]
    dsimp only [value_as_callable]
    rw [if_neg (by simp [hlen]), hargs]
    dsimp only
    rw [hbody]

/-- Witness for C2: `return 7;` raises the `Return` signal carrying 7, and
calling the zero-parameter `f` (whose body is `return 7;`) yields 7 as the
call's result with the call scope popped. -/
theorem c2_witness :
    evaluate_statement 2 c2_source
      (.return_ (.literal (.number (Token.new 4 5 .number)))) c2_interpreter
    = (c2_interpreter, some (.ret (.number (Span.new 4 5) 7)))
    ∧ evaluate_call 10 c2_source (.variable (Token.new 0 1 .identifier))
      (Token.new 2 3 .rightParen) [] c2_interpreter
    = (c2_interpreter, .ok (.number (Span.new 4 5) 7)) := by
  constructor
  · exact c2_return_signal.1 1 c2_source
      (.literal (.number (Token.new 4 5 .number))) c2_interpreter c2_interpreter
      (.number (Span.new 4 5) 7) rfl
  · exact c2_return_signal.2.2.2.1 9 c2_source
      (.variable (Token.new 0 1 .identifier)) (Token.new 2 3 .rightParen) []
      c2_interpreter c2_interpreter c2_interpreter
      (c2_interpreter.push Environment.new)
      (.mk (Span.new 0 1) []
        [.statement (.return_ (.literal (.number (Token.new 4 5 .number))))])
      (Span.new 0 1) [] (.number (Span.new 4 5) 7) rfl rfl rfl rfl rfl

theorem list_lookup_cons (a k : String) (b : Value) (es : List (String × Value)) :
    List.lookup a ((k, b) :: es) = if a = k then some b else List.lookup a es := by
  by_cases h : a = k
  · simp [List.lookup, h]
  · have hb : (a == k) = false := beq_eq_false_iff_ne.mpr h
    simp [List.lookup, hb, h]

theorem lookup_map_update (name : String) (v : Value) :
    ∀ (values : List (String × Value)), (values.lookup name).isSome = true →
    (values.map (fun entry => if entry.1 = name then (name, v) else entry)).lookup
      name = some v := by
  intro values
  induction values with
  | nil => simp
  | cons kw rest ih =>
    obtain ⟨k, w⟩ := kw
    intro h
    rw [List.map_cons]
    by_cases hk : k = name
    · subst hk
      rw [if_pos rfl, list_lookup_cons, if_pos rfl]
    · rw [show (if (k, w).1 = name then (name, v) else (k, w)) = (k, w) from if_neg hk,
        list_lookup_cons, if_neg (fun hh => hk hh.symm)]
      apply ih
      rwa [list_lookup_cons, if_neg (fun hh => hk hh.symm)] at h

theorem env_assign_none_iff : ∀ (e : Environment) (name : String) (v : Value),
    Environment.assign e name v = none ↔ Environment.chainBinds name e = false
  | .mk none values, name, v => by
    unfold Environment.assign Environment.chainBinds
    by_cases hl : (values.lookup name).isSome = true <;> simp [hl]
  | .mk (some p) values, name, v => by
    have ih := env_assign_none_iff p name v
    unfold Environment.assign Environment.chainBinds
    by_cases hl : (values.lookup name).isSome = true
    · simp [hl]
    · cases hpa : Environment.assign p name v with
      | none => simp [hl, hpa, ih.mp hpa]
      | some p' =>
        have hbinds : ¬(Environment.chainBinds name p = false) := by
          intro hc
          rw [ih.mpr hc] at hpa
          cases hpa
        simp [hl, hpa, hbinds]

theorem env_assign_get : ∀ (e e' : Environment) (name : String) (v : Value),
    Environment.assign e name v = some e' →
    ∀ (source : String) (token : Token), token.span.slice source = name →
    e'.get source token = some v
  | .mk none values, e', name, v, h, source, token, htok => by
    unfold Environment.assign at h
    by_cases hl : (values.lookup name).isSome = true
    · rw [if_pos hl] at h
      cases h
      unfold Environment.get
      rw [htok, lookup_map_update name v values hl]
    · rw [if_neg hl] at h
      cases h
  | .mk (some p) values, e', name, v, h, source, token, htok => by
    unfold Environment.assign at h
    by_cases hl : (values.lookup name).isSome = true
    · rw [if_pos hl] at h
      cases h
      unfold Environment.get
      rw [htok, lookup_map_update name v values hl]
    · rw [if_neg hl] at h
      cases hpa : Environment.assign p name v with
      | none => rw [hpa] at h; cases h
      | some p' =>
        rw [hpa] at h
        cases h
        unfold Environment.get
        rw [htok]
        have hnone : values.lookup name = none := by
          cases hn : values.lookup name with
          | none => rfl
          | some w => rw [hn] at hl; simp at hl
        rw [hnone]
        exact env_assign_get p p' name v hpa source token htok

theorem assignStack_none_iff (name : String) (v : Value) :
    ∀ (stack : List Environment), assignStack name v stack = none ↔
      ∀ e ∈ stack, Environment.chainBinds name e = false := by
  intro stack
  induction stack with
  | nil => simp [assignStack]
  | cons e rest ih =>
    unfold assignStack
    cases hea : Environment.assign e name v with
    | some e' =>
      have : ¬(Environment.chainBinds name e = false) := by
        intro hc
        rw [(env_assign_none_iff e name v).mpr hc] at hea
        cases hea
      simp [this]
    | none =>
      have he : Environment.chainBinds name e = false :=
        (env_assign_none_iff e name v).mp hea
      cases hr : assignStack name v rest with
      | some rest' =>
        have : ¬(∀ x ∈ rest, Environment.chainBinds name x = false) := by
          intro hall
          rw [(ih).mpr hall] at hr
          cases hr
        simp [he, this]
      | none =>
        have hall := ih.mp hr
        simp [he, hr]
        exact hall

theorem assignStack_some_spec (name : String) (v : Value) :
    ∀ (stack stack' : List Environment), assignStack name v stack = some stack' →
    ∃ pre e e' post, stack = pre ++ e :: post ∧ stack' = pre ++ e' :: post ∧
      (∀ x ∈ pre, Environment.chainBinds name x = false) ∧
      Environment.assign e name v = some e' := by
  intro stack
  induction stack with
  | nil => intro s h; simp [assignStack] at h
  | cons e rest ih =>
    intro stack' h
    unfold assignStack at h
    cases hea : Environment.assign e name v with
    | some e2 =>
      rw [hea] at h
      cases h
      exact ⟨[], e, e2, rest, rfl, rfl, by simp, hea⟩
    | none =>
      rw [hea] at h
      cases hr : assignStack name v rest with
      | none => rw [hr] at h; cases h
      | some rest' =>
        rw [hr] at h
        cases h
        obtain ⟨pre, e1, e1', post, h1, h2, h3, h4⟩ := ih rest' hr
        refine ⟨e :: pre, e1, e1', post, by simp [h1], by simp [h2], ?_, h4⟩
        intro x hx
        rcases List.mem_cons.mp hx with rfl | hx
        · exact (env_assign_none_iff x name v).mp hea
        · exact h3 x hx

/-- C4: assignment evaluates the right-hand side first; then, if no scope
in the environment chain binds the name, it raises `VariableDoesntExist`
and the state is exactly the post-right-hand-side state (no binding is
created anywhere); if some scope binds it, the innermost such scope's
binding is overwritten in place — all enclosing (deeper) scopes are
untouched and the updated scope resolves the name to the assigned value. -/
theorem c4_assignment :
    (∀ (fuel : Nat) (source : String) (name : Token) (value : Expression)
        (i i1 : Interpreter) (v : Value),
      evaluate_expression fuel source value i = (i1, .ok v) →
      (∀ e ∈ i1.environment_stack,
        Environment.chainBinds (name.span.slice source) e = false) →
      evaluate_expression (fuel + 1) source (.assignment name value) i =
        (i1, .error (.err (.variableDoesntExist name))))
    ∧ (∀ (fuel : Nat) (source : String) (name : Token) (value : Expression)
        (i i1 i2 : Interpreter) (v : Value),
      evaluate_expression fuel source value i = (i1, .ok v) →
      Interpreter.assign i1 (name.span.slice source) v = some i2 →
      evaluate_expression (fuel + 1) source (.assignment name value) i = (i2, .ok v)
      ∧ ∃ pre e e' post,
          i1.environment_stack = pre ++ e :: post ∧
          i2.environment_stack = pre ++ e' :: post ∧
          (∀ x ∈ pre, Environment.chainBinds (name.span.slice source) x = false) ∧
          Environment.assign e (name.span.slice source) v = some e' ∧
          e'.get source name = some v) := by
  constructor
  · intro fuel source name value i i1 v hv hunbound
    have hnone : Interpreter.assign i1 (name.span.slice source) v = none := by
      unfold Interpreter.assign
      rw [(assignStack_none_iff _ _ _).mpr hunbound]
    conv_lhs => rw [evaluate_expression.eq_def]
    dsimp only
    rw [hv]
    dsimp only
    rw [hnone]
  · intro fuel source name value i i1 i2 v hv hassign
    constructor
    · conv_lhs => rw [evaluate_expression.eq_def]
      dsimp only
      rw [hv]
      dsimp only
      rw [hassign]
    · unfold Interpreter.assign at hassign
      cases hs : assignStack (name.span.slice source) v i1.environment_stack with
      | none => rw [hs] at hassign; cases hassign
      | some s =>
        rw [hs] at hassign
        cases hassign
        obtain ⟨pre, e, e', post, h1, h2, h3, h4⟩ :=
          assignStack_some_spec _ _ _ _ hs
        exact ⟨pre, e, e', post, h1, h2, h3, h4,
          env_assign_get e e' _ v h4 source name rfl⟩

/-- Witness for C4: `x = 1` with `x` nowhere bound raises
`VariableDoesntExist` and leaves the fresh interpreter state unchanged;
with `x` bound in the global scope, the same assignment overwrites it and
returns the assigned value. -/
theorem c4_witness :
    evaluate_expression 2 "x=1"
      (.assignment (Token.new 0 1 .identifier)
        (.literal (.number (Token.new 2 3 .number)))) Interpreter.new
    = (Interpreter.new, .error (.err (.variableDoesntExist (Token.new 0 1 .identifier))))
    ∧ evaluate_expression 2 "x=1"
      (.assignment (Token.new 0 1 .identifier)
        (.literal (.number (Token.new 2 3 .number))))
      ⟨[Environment.new.define "x" (.nil (Span.new 0 1))]⟩
    = (⟨[Environment.new.define "x" (.number (Span.new 2 3) 1)]⟩, .ok (.number (Span.new 2 3) 1)) := by
  constructor
  · exact c4_assignment.1 1 "x=1" (Token.new 0 1 .identifier)
      (.literal (.number (Token.new 2 3 .number))) Interpreter.new Interpreter.new
      (.number (Span.new 2 3) 1) rfl (by decide)
  · exact (c4_assignment.2 1 "x=1" (Token.new 0 1 .identifier)
      (.literal (.number (Token.new 2 3 .number)))
      ⟨[Environment.new.define "x" (.nil (Span.new 0 1))]⟩
      ⟨[Environment.new.define "x" (.nil (Span.new 0 1))]⟩
      ⟨[Environment.new.define "x" (.number (Span.new 2 3) 1)]⟩
      (.number (Span.new 2 3) 1) rfl rfl).1

/-- C1 exhibit: after declaring
`fun f(){return a;} fun g(){var a=2;return f();}`, no scope in the
interpreter's environment chain binds `a` (second conjunct) — so under the
claimed lexical scoping the call `g()` would fail with
`VariableDoesntExist` — yet the interpreter evaluates `g()` to 2: the free
`a` in `f`'s body resolves against the caller `g`'s environment, because
`evaluate_call` pushes a fresh parentless scope onto the caller's stack
instead of one parented to a captured closure environment. -/
theorem c1_dynamic_scope_exhibit :
    (evaluate_expression 99 c1_source c1_call
      (evaluate_declarations 99 c1_source [c1_declF, c1_declG] Interpreter.new).1).2
      = .ok (.number (Span.new 32 33) 2)
    ∧ ((evaluate_declarations 99 c1_source [c1_declF, c1_declG]
        Interpreter.new).1.environment_stack.all
          (fun e => !(Environment.chainBinds "a" e))) = true :=
  ⟨rfl, rfl⟩

theorem parse_expression_ident_comma (fuel : Nat) (ts : List Token)
    (e : List ParseError) :
    parse_expression (fuel + 11) { rest := c6_identTok :: c6_commaTok :: ts, errors := e } =
      .ok (.variable c6_identTok) { rest := c6_commaTok :: ts, errors := e } := rfl

theorem parse_expression_ident_rparen (fuel : Nat) (ts : List Token)
    (e : List ParseError) :
    parse_expression (fuel + 11) { rest := c6_identTok :: c6_rparenTok :: ts, errors := e } =
      .ok (.variable c6_identTok) { rest := c6_rparenTok :: ts, errors := e } := rfl

theorem consume_comma_of_rparen (ts : List Token) (e : List ParseError) :
    Parser.consume_token_if_in_vec { rest := c6_rparenTok :: ts, errors := e } [.comma] =
      (none, { rest := c6_rparenTok :: ts, errors := e }) := rfl

theorem consume_comma_of_comma (ts : List Token) (e : List ParseError) :
    Parser.consume_token_if_in_vec { rest := c6_commaTok :: ts, errors := e } [.comma] =
      (some c6_commaTok, { rest := ts, errors := e }) := rfl

/-- The argument loop of `parse_call_arguments` on `k + 1` identifier
arguments: it parses them all, ending at the closing paren, and appends one
`TwoManyArguments` error for every argument whose index (counting the `acc`
arguments already parsed) reaches 255. -/
theorem c6_loop : ∀ (k fuel : Nat) (acc : List Expression) (e : List ParseError)
    (ts : List Token),
    parse_call_arguments_loop (fuel + 13 * k + 13) (.variable c6_identTok) acc
      { rest := c6_argTokens (k + 1) ++ c6_rparenTok :: ts, errors := e } =
    .ok (acc ++ List.replicate (k + 1) (.variable c6_identTok))
      { rest := c6_rparenTok :: ts, errors := e ++ c6_tma_errors acc.length (k + 1) } := by
  intro k
  induction k with
  | zero =>
    intro fuel acc e ts
    rw [show fuel + 13 * 0 + 13 = (fuel + 12) + 1 from by omega]
    simp only [c6_argTokens, List.cons_append, List.nil_append]
    conv_lhs => rw [parse_call_arguments_loop]
    rw [show (fuel + 12 : Nat) = (fuel + 1) + 11 from by omega,
      parse_expression_ident_rparen]
    dsimp only [Expression.span?]
    simp only [List.length_append, List.length_cons, List.length_nil]
    by_cases h255 : 255 ≤ acc.length + 1
    · rw [if_pos (by omega)]
      dsimp only
      rw [consume_comma_of_rparen]
      dsimp only
      rw [show c6_tma_errors acc.length 1 =
        [.twoManyArguments (Span.new 0 1)] from by
          simp [c6_tma_errors, show acc.length + 1 - max acc.length 254 = 1 from by omega]]
      rfl
    · rw [if_neg (by omega)]
      dsimp only
      rw [consume_comma_of_rparen]
      dsimp only
      rw [show c6_tma_errors acc.length 1 = [] from by
        simp [c6_tma_errors, show acc.length + 1 - max acc.length 254 = 0 from by omega]]
      simp [List.replicate]
  | succ k ih =>
    intro fuel acc e ts
    rw [show fuel + 13 * (k + 1) + 13 = (fuel + 13 * k + 25) + 1 from by omega]
    rw [show c6_argTokens (k + 1 + 1) = c6_identTok :: c6_commaTok :: c6_argTokens (k + 1)
      from rfl]
    conv_lhs => rw [parse_call_arguments_loop]
    simp only [List.cons_append]
    rw [show (fuel + 13 * k + 25 : Nat) = (fuel + 13 * k + 14) + 11 from by omega,
      parse_expression_ident_comma]
    dsimp only [Expression.span?]
    simp only [List.length_append, List.length_cons, List.length_nil]
    by_cases h255 : 255 ≤ acc.length + 1
    · rw [if_pos (by omega)]
      dsimp only
      rw [consume_comma_of_comma]
      dsimp only
      rw [show (fuel + 13 * k + 14) + 11 = (fuel + 12) + 13 * k + 13 from by omega, ih]
      simp only [List.append_assoc, List.length_append, List.length_cons,
        List.length_nil, List.singleton_append]
      rw [show c6_tma_errors acc.length (k + 1 + 1) =
        .twoManyArguments (Span.new 0 1) :: c6_tma_errors (acc.length + 1) (k + 1) from by
          simp only [c6_tma_errors]
          rw [show acc.length + (k + 1 + 1) - max acc.length 254 =
            (acc.length + 1 + (k + 1) - max (acc.length + 1) 254) + 1 from by omega]
          rfl]
      simp [List.replicate_succ, c6_identTok, Token.new, Span.new]
    · rw [if_neg (by omega)]
      dsimp only
      rw [consume_comma_of_comma]
      dsimp only
      rw [show (fuel + 13 * k + 14) + 11 = (fuel + 12) + 13 * k + 13 from by omega, ih]
      simp only [List.append_assoc, List.length_append, List.length_cons,
        List.length_nil]
      rw [show c6_tma_errors (acc.length + 1) (k + 1) =
        c6_tma_errors acc.length (k + 1 + 1) from by
          simp only [c6_tma_errors]
          rw [show acc.length + 1 + (k + 1) - max (acc.length + 1) 254 =
            acc.length + (k + 1 + 1) - max acc.length 254 from by omega]]
      simp [List.replicate_succ]

theorem parse_call_family_start (fuel : Nat) (ts : List Token) (e : List ParseError) :
    parse_call (fuel + 2) { rest := c6_identTok :: c6_lparenTok :: ts, errors := e } =
      match parse_call_arguments fuel (.variable c6_identTok) { rest := ts, errors := e } with
      | .ok expression p => parse_call_loop fuel expression p
      | other => other := rfl

theorem parse_call_arguments_ident_start (fuel : Nat) (ts : List Token)
    (e : List ParseError) :
    parse_call_arguments (fuel + 1) (.variable c6_identTok)
      { rest := c6_identTok :: ts, errors := e } =
      match parse_call_arguments_loop fuel (.variable c6_identTok) []
          { rest := c6_identTok :: ts, errors := e } with
      | .ok arguments p => parse_call_arguments_close (.variable c6_identTok) arguments p
      | .failed p => .failed p
      | .panicked => .panicked
      | .fuelOut => .fuelOut := rfl

theorem consume_of_nil (e : List ParseError) (token_types : List TokenType) :
    Parser.consume_token_if_in_vec { rest := [], errors := e } token_types =
      (none, { rest := [], errors := e }) := rfl

theorem parse_call_arguments_close_rparen (args : List Expression)
    (ts : List Token) (e : List ParseError) :
    parse_call_arguments_close (.variable c6_identTok) args
      { rest := c6_rparenTok :: ts, errors := e } =
      .ok (.call (.variable c6_identTok) args c6_rparenTok)
        { rest := ts, errors := e } := rfl

/-- C6 (amended): parsing a call `f(a, …, a)` with `n ≥ 1` arguments
succeeds, and the recorded `TwoManyArguments` errors are exactly
`c6_tma_errors 0 n` — one per argument from the 255th on.  In particular a
call with at most 254 arguments records no error, while a call with
exactly 255 arguments (≤ 255, where the claim asserts none) already records
one: the loop checks `arguments.len() >= 255` after pushing, so the
threshold is at 255, not above it. -/
theorem c6_call_arguments_threshold : ∀ (n fuel : Nat), 1 ≤ n →
    parse_call (fuel + 13 * n + 16) { rest := c6_callTokens n, errors := [] } =
      .ok (.call (.variable c6_identTok)
          (List.replicate n (.variable c6_identTok)) c6_rparenTok)
        { rest := [], errors := c6_tma_errors 0 n } := by
  intro n fuel hn
  obtain ⟨k, rfl⟩ : ∃ k, n = k + 1 := ⟨n - 1, by omega⟩
  rw [show fuel + 13 * (k + 1) + 16 = (fuel + 13 * k + 27) + 2 from by omega]
  unfold c6_callTokens
  rw [parse_call_family_start]
  have hhead : ∃ ts', c6_argTokens (k + 1) ++ [c6_rparenTok] = c6_identTok :: ts' ∧
      c6_identTok :: ts' = c6_argTokens (k + 1) ++ c6_rparenTok :: [] := by
    cases k with
    | zero => exact ⟨[c6_rparenTok], rfl, rfl⟩
    | succ k => exact ⟨c6_commaTok :: c6_argTokens (k + 1) ++ [c6_rparenTok], rfl, rfl⟩
  obtain ⟨ts', hts, hts'⟩ := hhead
  rw [hts]
  rw [show (fuel + 13 * k + 27 : Nat) = (fuel + 13 * k + 26) + 1 from by omega,
    parse_call_arguments_ident_start]
  rw [hts']
  rw [show (fuel + 13 * k + 26 : Nat) = (fuel + 13) + 13 * k + 13 from by omega,
    c6_loop]
  dsimp only
  rw [parse_call_arguments_close_rparen]
  dsimp only
  conv_lhs => rw [parse_call_loop]
  rw [consume_of_nil]
  simp

set_option maxRecDepth 400000 in
/-- C6 counterexample: a call with exactly 255 arguments — within the "255
or fewer" range the claim says is error-free — records a
`TwoManyArguments` parse error. -/
theorem c6_counterexample :
    (match parse_call (13 * 255 + 16) { rest := c6_callTokens 255, errors := [] } with
     | .ok _ p => p.errors
     | _ => []) = [.twoManyArguments (Span.new 0 1)] := by decide

/-- Witness for C6's amended theorem at `n = 1`: a one-argument call parses
with no recorded error (`c6_tma_errors 0 1` is empty). -/
theorem c6_witness :
    parse_call (0 + 13 * 1 + 16) { rest := c6_callTokens 1, errors := [] } =
      .ok (.call (.variable c6_identTok)
          (List.replicate 1 (.variable c6_identTok)) c6_rparenTok)
        { rest := [], errors := c6_tma_errors 0 1 }
    ∧ c6_tma_errors 0 1 = [] :=
  ⟨c6_call_arguments_threshold 1 0 (by decide), rfl⟩

/-- Witness for C10 at `4 / 0`: division by zero evaluates without any
error. -/
theorem c10_witness :
    evaluate_binary_expression 3 "4/0"
      (.literal (.number (Token.new 0 1 .number)))
      (.literal (.number (Token.new 2 3 .number))) (Token.new 1 2 .slash)
      Interpreter.new
    = (Interpreter.new, .ok (.number (Span.new 0 3) ((4 : ℚ) / 0))) :=
  c10_division.1 1 "4/0"
    (.literal (.number (Token.new 0 1 .number)))
    (.literal (.number (Token.new 2 3 .number))) (Token.new 1 2 .slash)
    Interpreter.new Interpreter.new Interpreter.new
    (Span.new 0 1) (Span.new 2 3) (Span.new 0 1) (Span.new 2 3) 4 0
    rfl rfl rfl rfl rfl

end RustyLox
